import Mathlib

/-!
Verification of the parameter-normalization core and the horizontal-slider
gesture state machine of the iced_audio library.

Numeric model: the source uses `f32`. Every `f32` value is a (dyadic)
rational number, so external inputs (construction arguments, setter
arguments, cursor coordinates) are modelled as `ℚ`. The arithmetic itself
is modelled exactly: over `ℚ` for the affine maps of `FloatParam`,
`IntParam` and the slider, and over `ℝ` for `LogDBParam` and `OctaveParam`
whose maps use `sqrt`, `log2` and `powf`. Rounding error of `f32` is thus
idealized away, which matches the within-floating-tolerance reading of
the specification.

Rust `assert!` in constructors is modelled by returning `Option`
(`none` = panic). `FooParam.newRaw` is the body after the asserts and
`FooParam.new` is the guarded constructor.
-/

namespace IcedAudio

/-- Modelled from the spec: the `Normal` value type (its source file
`src/core/normal.rs` is not among the provided sources). A scalar
constrained to `[0.0, 1.0]`; values outside the range are clamped on
construction. Equality is value-based. The type is parametric in the
scalar so the same code can be read over `ℚ` (exact f32 inputs) and
over `ℝ` (ideal arithmetic). -/
structure Normal (α : Type) where
  val : α
deriving Repr, DecidableEq

/-- Modelled from the spec: `Normal::new` clamps its argument into
`[0, 1]` (total and silent). This is also the model of `f32 -> Normal`
conversion (`.into()`). -/
def Normal.new {α : Type} [Zero α] [One α] [LinearOrder α] (x : α) : Normal α :=
  ⟨if x < 0 then 0 else if x > 1 then 1 else x⟩

theorem Normal.new_val_nonneg {α : Type} [Zero α] [One α] [LinearOrder α]
    [ZeroLEOneClass α] (x : α) : 0 ≤ (Normal.new x).val := by
  unfold Normal.new
  split
  · exact le_refl 0
  · split
    · exact zero_le_one
    · exact le_of_not_lt (by assumption)

theorem Normal.new_val_le_one {α : Type} [Zero α] [One α] [LinearOrder α]
    [ZeroLEOneClass α] (x : α) : (Normal.new x).val ≤ 1 := by
  unfold Normal.new
  split
  · exact zero_le_one
  · split
    · exact le_refl 1
    · exact le_of_not_lt (by assumption)

theorem Normal.new_of_mem {α : Type} [Zero α] [One α] [LinearOrder α]
    (x : α) (h0 : 0 ≤ x) (h1 : x ≤ 1) : (Normal.new x).val = x := by
  unfold Normal.new
  rw [if_neg (not_lt.mpr h0), if_neg (not_lt.mpr h1)]

/-! ## FloatParam (src/core/param.rs, lines 44-192), modelled over `ℚ` -/

/-- Rust `struct FloatParam` of src/core/param.rs. The generic `ID` is taken
to be `ℕ` (the claims do not depend on the identifier type). -/
structure FloatParam where
  id : ℕ
  value : ℚ
  default_value : ℚ
  normal : Normal ℚ
  default_normal : Normal ℚ
  min : ℚ
  max : ℚ
  range : ℚ
  range_recip : ℚ
deriving Repr, DecidableEq

/-- Rust `FloatParam::constrain`. -/
def FloatParam.constrain (p : FloatParam) (value : ℚ) : ℚ :=
  if value ≤ p.min then p.min
  else if value ≥ p.max then p.max
  else value

/-- Rust `FloatParam::value_to_normal`. -/
def FloatParam.value_to_normal (p : FloatParam) (value : ℚ) : Normal ℚ :=
  Normal.new ((value - p.min) * p.range_recip)

/-- Rust `FloatParam::normal_to_value`, with the snap-to-default window of
`0.001` around the default value. -/
def FloatParam.normal_to_value (p : FloatParam) (normal : Normal ℚ) : ℚ :=
  let value := normal.val * p.range + p.min
  if p.default_value - 1/1000 < value ∧ value < p.default_value + 1/1000 then
    p.default_value
  else value

/-- Body of `FloatParam::new` after the `assert!(max > min)`. -/
def FloatParam.newRaw (id : ℕ) (min max value default_value : ℚ) : FloatParam :=
  let range := max - min
  let range_recip := range⁻¹
  let p0 : FloatParam :=
    { id := id, value := value, default_value := default_value,
      normal := Normal.new 0, default_normal := Normal.new 0,
      min := min, max := max, range := range, range_recip := range_recip }
  let p1 := { p0 with value := p0.constrain value,
                      default_value := p0.constrain default_value }
  { p1 with normal := p1.value_to_normal p1.value,
            default_normal := p1.value_to_normal p1.default_value }

/-- Rust `FloatParam::new`; `none` models the `assert!(max > min)` panic. -/
def FloatParam.new (id : ℕ) (min max value default_value : ℚ) :
    Option FloatParam :=
  if max > min then some (FloatParam.newRaw id min max value default_value)
  else none

/-- Rust `FloatParam::set_from_value`. -/
def FloatParam.set_from_value (p : FloatParam) (value : ℚ) : FloatParam :=
  if p.value ≠ value then
    let v := p.constrain value
    { p with value := v, normal := p.value_to_normal v }
  else p

/-- Rust `FloatParam::set_from_normal`. -/
def FloatParam.set_from_normal (p : FloatParam) (normal : Normal ℚ) : FloatParam :=
  if p.normal ≠ normal then
    { p with value := p.normal_to_value normal, normal := normal }
  else p

/-! ## IntParam (src/core/param.rs, lines 194-355), modelled over `ℤ`/`ℚ` -/

/-- Rust `f32::round`: round half away from zero. -/
def rustRound (x : ℚ) : ℤ :=
  if 0 ≤ x then ⌊x + 1/2⌋ else -⌊-x + 1/2⌋

/-- Rust `struct IntParam` of src/core/param.rs. -/
structure IntParam where
  id : ℕ
  value : ℤ
  default_value : ℤ
  normal : Normal ℚ
  default_normal : Normal ℚ
  min : ℤ
  max : ℤ
  range : ℚ
  range_recip : ℚ
deriving Repr, DecidableEq

/-- Rust `IntParam::constrain`. -/
def IntParam.constrain (p : IntParam) (value : ℤ) : ℤ :=
  if value ≤ p.min then p.min
  else if value ≥ p.max then p.max
  else value

/-- Rust `IntParam::value_to_normal`. -/
def IntParam.value_to_normal (p : IntParam) (value : ℤ) : Normal ℚ :=
  Normal.new (((value - p.min : ℤ) : ℚ) * p.range_recip)

/-- Rust `IntParam::normal_to_value`: `(normal.value() * range).round() as i32 + min`. -/
def IntParam.normal_to_value (p : IntParam) (normal : Normal ℚ) : ℤ :=
  rustRound (normal.val * p.range) + p.min

/-- Body of `IntParam::new` after the `assert!(max > min)`. -/
def IntParam.newRaw (id : ℕ) (min max value default_value : ℤ) : IntParam :=
  let range : ℚ := ((max - min : ℤ) : ℚ)
  let range_recip := range⁻¹
  let p0 : IntParam :=
    { id := id, value := value, default_value := default_value,
      normal := Normal.new 0, default_normal := Normal.new 0,
      min := min, max := max, range := range, range_recip := range_recip }
  let p1 := { p0 with value := p0.constrain value,
                      default_value := p0.constrain default_value }
  { p1 with normal := p1.value_to_normal p1.value,
            default_normal := p1.value_to_normal p1.default_value }

/-- Rust `IntParam::new`; `none` models the `assert!(max > min)` panic. -/
def IntParam.new (id : ℕ) (min max value default_value : ℤ) : Option IntParam :=
  if max > min then some (IntParam.newRaw id min max value default_value)
  else none

/-- Rust `IntParam::set_from_value`. -/
def IntParam.set_from_value (p : IntParam) (value : ℤ) : IntParam :=
  if p.value ≠ value then
    let v := p.constrain value
    { p with value := v, normal := p.value_to_normal v }
  else p

/-- Rust `IntParam::set_from_normal`: the stored `Normal` is recomputed from
the rounded, constrained value. -/
def IntParam.set_from_normal (p : IntParam) (normal : Normal ℚ) : IntParam :=
  if p.normal ≠ normal then
    let v := p.constrain (p.normal_to_value normal)
    { p with value := v, normal := p.value_to_normal v }
  else p

/-! ## LogDBParam (src/core/param.rs, lines 357-565)

Construction arguments are `f32` (hence `ℚ`); the mutable `value` and
`normal` evolve through `sqrt`-based maps, hence live in `ℝ`. -/

/-- Rust `struct LogDBParam` of src/core/param.rs. -/
structure LogDBParam where
  id : ℕ
  value : ℝ
  default_value : ℝ
  normal : Normal ℝ
  default_normal : Normal ℝ
  zero_normal : Normal ℚ
  min : ℚ
  max : ℚ
  range : ℚ
  range_recip : ℚ

/-- Rust `LogDBParam::constrain`. -/
noncomputable def LogDBParam.constrain (p : LogDBParam) (value : ℝ) : ℝ :=
  if value ≤ (p.min : ℝ) then (p.min : ℝ)
  else if value ≥ (p.max : ℝ) then (p.max : ℝ)
  else value

/-- Rust `LogDBParam::value_to_normal`. -/
noncomputable def LogDBParam.value_to_normal (p : LogDBParam) (value : ℝ) :
    Normal ℝ :=
  if value = 0 then ⟨(p.zero_normal.val : ℝ)⟩
  else if value < 0 then
    if 0 ≤ p.min then Normal.new 0
    else
      let neg_normal := value / (p.min : ℝ)
      let log_normal := 1 - Real.sqrt neg_normal
      Normal.new (log_normal * (p.zero_normal.val : ℝ))
  else
    if p.max ≤ 0 then Normal.new 1
    else
      let pos_normal := value / (p.max : ℝ)
      let log_normal := Real.sqrt pos_normal
      Normal.new (log_normal * (1 - (p.zero_normal.val : ℝ)) +
        (p.zero_normal.val : ℝ))

/-- Rust `LogDBParam::normal_to_value`. -/
noncomputable def LogDBParam.normal_to_value (p : LogDBParam) (normal : Normal ℝ) :
    ℝ :=
  if normal.val = (p.zero_normal.val : ℝ) then 0
  else if normal.val < (p.zero_normal.val : ℝ) then
    if 0 ≤ p.min then (p.min : ℝ)
    else
      let neg_normal := normal.val / (p.zero_normal.val : ℝ)
      let log_normal := 1 - (1 - neg_normal) ^ (2 : ℕ)
      (1 - log_normal) * (p.min : ℝ)
  else
    if p.zero_normal.val = 1 ∨ p.max ≤ 0 then (p.max : ℝ)
    else
      let pos_normal := (normal.val - (p.zero_normal.val : ℝ)) /
        (1 - (p.zero_normal.val : ℝ))
      let log_normal := pos_normal ^ (2 : ℕ)
      log_normal * (p.max : ℝ)

/-- Body of `LogDBParam::new` after the three asserts. -/
noncomputable def LogDBParam.newRaw (id : ℕ) (min max value default_value : ℚ)
    (zero_normal : Normal ℚ) : LogDBParam :=
  let range := max - min
  let range_recip := range⁻¹
  let p0 : LogDBParam :=
    { id := id, value := (value : ℝ), default_value := (default_value : ℝ),
      normal := Normal.new 0, default_normal := Normal.new 0,
      zero_normal := zero_normal,
      min := min, max := max, range := range, range_recip := range_recip }
  let p1 := { p0 with value := p0.constrain (value : ℝ),
                      default_value := p0.constrain (default_value : ℝ) }
  { p1 with normal := p1.value_to_normal p1.value,
            default_normal := p1.value_to_normal p1.default_value }

/-- Rust `LogDBParam::new`; `none` models a failed assert: it requires
`max > min`, `max >= 0.0` and `min <= 0.0`. -/
noncomputable def LogDBParam.new (id : ℕ) (min max value default_value : ℚ)
    (zero_normal : Normal ℚ) : Option LogDBParam :=
  if max > min ∧ max ≥ 0 ∧ min ≤ 0 then
    some (LogDBParam.newRaw id min max value default_value zero_normal)
  else none

/-- Rust `LogDBParam::set_from_value`. -/
noncomputable def LogDBParam.set_from_value (p : LogDBParam) (value : ℝ) :
    LogDBParam :=
  if p.value ≠ value then
    let v := p.constrain value
    { p with value := v, normal := p.value_to_normal v }
  else p

/-- Rust `LogDBParam::set_from_normal`: stores the given `Normal` verbatim. -/
noncomputable def LogDBParam.set_from_normal (p : LogDBParam) (normal : Normal ℝ) :
    LogDBParam :=
  if p.normal ≠ normal then
    { p with value := p.normal_to_value normal, normal := normal }
  else p

/-! ## OctaveParam (src/core/param.rs, lines 567-765) -/

/-- Rust `octave_spectrum_to_normal`: frequency to position in the whole
10-octave 20 Hz - 20480 Hz spectrum. -/
noncomputable def octave_spectrum_to_normal (freq : ℝ) : Normal ℝ :=
  Normal.new ((Real.logb 2 (freq / 40) + 1) * (1/10))

/-- Rust `octave_normal_to_spectrum`: position in the whole 10-octave spectrum
to frequency, `40.0 * 2.0f32.powf(10.0 * normal.value() - 1.0)`. -/
noncomputable def octave_normal_to_spectrum (normal : Normal ℝ) : ℝ :=
  40 * (2 : ℝ) ^ (10 * normal.val - 1)

/-- Rust `struct OctaveParam` of src/core/param.rs. -/
structure OctaveParam where
  id : ℕ
  value : ℝ
  default_value : ℝ
  normal : Normal ℝ
  default_normal : Normal ℝ
  min_spectrum_normal : Normal ℝ
  spectrum_normal_range : ℝ
  min : ℚ
  max : ℚ
  range : ℚ
  range_recip : ℚ

/-- Rust `OctaveParam::constrain`. -/
noncomputable def OctaveParam.constrain (p : OctaveParam) (value : ℝ) : ℝ :=
  if value ≤ (p.min : ℝ) then (p.min : ℝ)
  else if value ≥ (p.max : ℝ) then (p.max : ℝ)
  else value

/-- Rust `OctaveParam::value_to_normal`. -/
noncomputable def OctaveParam.value_to_normal (p : OctaveParam) (value : ℝ) :
    Normal ℝ :=
  let spectrum_normal := octave_spectrum_to_normal value
  Normal.new ((spectrum_normal.val - p.min_spectrum_normal.val) /
    p.spectrum_normal_range)

/-- Rust `OctaveParam::normal_to_value`. -/
noncomputable def OctaveParam.normal_to_value (p : OctaveParam) (normal : Normal ℝ) :
    ℝ :=
  let spectrum_normal := Normal.new
    (normal.val * p.spectrum_normal_range + p.min_spectrum_normal.val)
  octave_normal_to_spectrum spectrum_normal

/-- Body of `OctaveParam::new` after the `assert!(max > min)`: the
requested bounds are clamped to the spectrum (`min` raised to 20.0 if
below it, `max` lowered to 20480.0 if above it) with no re-check that
the clamped bounds are still ordered. -/
noncomputable def OctaveParam.newRaw (id : ℕ) (min max value default_value : ℚ) :
    OctaveParam :=
  let min := if min < 20 then 20 else min
  let max := if max > 20480 then 20480 else max
  let range := max - min
  let range_recip := range⁻¹
  let min_spectrum_normal := octave_spectrum_to_normal (min : ℝ)
  let max_spectrum_normal := octave_spectrum_to_normal (max : ℝ)
  let spectrum_normal_range :=
    max_spectrum_normal.val - min_spectrum_normal.val
  let p0 : OctaveParam :=
    { id := id, value := (value : ℝ), default_value := (default_value : ℝ),
      normal := Normal.new 0, default_normal := Normal.new 0,
      min_spectrum_normal := min_spectrum_normal,
      spectrum_normal_range := spectrum_normal_range,
      min := min, max := max, range := range, range_recip := range_recip }
  let p1 := { p0 with value := p0.constrain (value : ℝ),
                      default_value := p0.constrain (default_value : ℝ) }
  { p1 with normal := p1.value_to_normal p1.value,
            default_normal := p1.value_to_normal p1.default_value }

/-- Rust `OctaveParam::new`; the only assert is `max > min` on the REQUESTED
bounds (checked before clamping to the spectrum). -/
noncomputable def OctaveParam.new (id : ℕ) (min max value default_value : ℚ) :
    Option OctaveParam :=
  if max > min then some (OctaveParam.newRaw id min max value default_value)
  else none

/-- Rust `OctaveParam::set_from_value`. -/
noncomputable def OctaveParam.set_from_value (p : OctaveParam) (value : ℝ) :
    OctaveParam :=
  if p.value ≠ value then
    let v := p.constrain value
    { p with value := v, normal := p.value_to_normal v }
  else p

/-- Rust `OctaveParam::set_from_normal`: stores the given `Normal` verbatim. -/
noncomputable def OctaveParam.set_from_normal (p : OctaveParam) (normal : Normal ℝ) :
    OctaveParam :=
  if p.normal ≠ normal then
    { p with value := p.normal_to_value normal, normal := normal }
  else p

/-! ## HSlider gesture state machine (src/native/h_slider.rs)

Cursor coordinates and layout bounds are `f32`, modelled as `ℚ`.
External iced_native types are abstracted at the boundary the spec
draws (section 6):
* `mouse::Click::new` (single/double/triple classification) lives in
  iced_native; the classified `Kind` is an input of the press event.
* `keyboard::ModifiersState::matches` lives in iced_native; the state
  machine only consumes the boolean outcome of
  `pressed_modifiers.matches(modifier_keys)`, so the pressed-modifier
  record is modelled by that boolean.
* `Rectangle::contains` (iced): half-open containment test.
The emitted message `(on_change)((id, normal))` is modelled as the pair
`(id, normal)` itself. -/

/-- Rust `mouse::click::Kind` of iced_native (external). -/
inductive ClickKind where
  | single
  | double
  | triple
deriving Repr, DecidableEq

/-- Layout bounds rectangle (iced `Rectangle<f32>`, external). -/
structure SliderRect where
  x : ℚ
  y : ℚ
  width : ℚ
  height : ℚ
deriving Repr, DecidableEq

/-- Rust `Rectangle::contains` of iced (external). -/
def SliderRect.contains (r : SliderRect) (px py : ℚ) : Bool :=
  r.x ≤ px ∧ px < r.x + r.width ∧ r.y ≤ py ∧ py < r.y + r.height

/-- Rust `struct State` of src/native/h_slider.rs. `last_click` stores the
position of the click that was recorded (the derived data iced_native
keeps in `mouse::Click` beyond its position is irrelevant here because
the click classification is an event input). -/
structure SliderState where
  is_dragging : Bool
  prev_drag_x : ℚ
  continuous_normal : ℚ
  pressed_modifiers_match : Bool
  last_click : Option (ℚ × ℚ)
deriving Repr, DecidableEq

/-- Rust `State::new`: seeds `continuous_normal` from the Param normal at
widget-state construction time. -/
def SliderState.new (paramNormal : Normal ℚ) : SliderState :=
  { is_dragging := false, prev_drag_x := 0,
    continuous_normal := paramNormal.val,
    pressed_modifiers_match := false, last_click := none }

/-- The fields of `struct HSlider` consumed by `on_event`: the id, the
Param Normal snapshot taken in `HSlider::new`, the default Normal, and
the modifier scalar (default `0.02`). -/
structure HSliderW where
  id : ℕ
  normal : Normal ℚ
  default_normal : Normal ℚ
  modifier_scalar : ℚ
deriving Repr, DecidableEq

/-- Rust `HSlider::new` restricted to the fields above; the scalar defaults
to `DEFAULT_MODIFIER_SCALAR = 0.02`. -/
def HSliderW.new (id : ℕ) (normal default_normal : Normal ℚ) : HSliderW :=
  { id := id, normal := normal, default_normal := default_normal,
    modifier_scalar := 1/50 }

/-- The events consumed by `HSlider::on_event`, at the abstraction
boundary of spec section 6. -/
inductive SliderEvent where
  | leftPressed (cursor_x cursor_y : ℚ) (kind : ClickKind)
  | leftReleased
  | cursorMoved (cursor_x : ℚ)
  | keyboardModifiers (matches_widget_keys : Bool)
deriving Repr, DecidableEq

/-- Rust `HSlider::on_event` of src/native/h_slider.rs: returns the updated
state and the list of `(id, Normal)` change messages pushed. -/
def HSliderW.on_event (w : HSliderW) (s : SliderState) (bounds : SliderRect)
    (e : SliderEvent) : SliderState × List (ℕ × Normal ℚ) :=
  match e with
  | .leftPressed cx cy kind =>
    if bounds.contains cx cy then
      match kind with
      | .single =>
        ({ s with is_dragging := true, prev_drag_x := cx,
                  last_click := some (cx, cy) }, [])
      | _ =>
        ({ s with is_dragging := false, last_click := some (cx, cy) },
          [(w.id, w.default_normal)])
    else (s, [])
  | .leftReleased =>
    ({ s with is_dragging := false, continuous_normal := w.normal.val }, [])
  | .cursorMoved cx =>
    if s.is_dragging then
      if bounds.width ≠ 0 then
        let movement_x := (cx - s.prev_drag_x) / bounds.width
        let movement_x :=
          if s.pressed_modifiers_match then movement_x * w.modifier_scalar
          else movement_x
        let normal := s.continuous_normal + movement_x
        ({ s with continuous_normal := normal, prev_drag_x := cx },
          [(w.id, Normal.new normal)])
      else (s, [])
    else (s, [])
  | .keyboardModifiers m =>
    ({ s with pressed_modifiers_match := m }, [])

/-! ## Setter-call sequences

A caller can only obtain a `Normal` through `Normal::new` (clamping), so
a `set_from_normal` call is modelled as carrying the raw scalar the
caller converted. `set_from_value` takes a raw `f32`, i.e. any `ℚ`. -/

/-- One mutation of a `FloatParam`: the two public entry points. -/
inductive FloatOp where
  | fromValue (v : ℚ)
  | fromNormal (x : ℚ)

/-- Apply one entry-point call to a `FloatParam`. -/
def FloatParam.applyOp (p : FloatParam) (op : FloatOp) : FloatParam :=
  match op with
  | .fromValue v => p.set_from_value v
  | .fromNormal x => p.set_from_normal (Normal.new x)

/-- Apply a finite sequence of entry-point calls to a `FloatParam`. -/
def FloatParam.applyOps (p : FloatParam) (ops : List FloatOp) : FloatParam :=
  ops.foldl FloatParam.applyOp p

/-- One mutation of an `IntParam`. -/
inductive IntOp where
  | fromValue (v : ℤ)
  | fromNormal (x : ℚ)

/-- Apply one entry-point call to an `IntParam`. -/
def IntParam.applyOp (p : IntParam) (op : IntOp) : IntParam :=
  match op with
  | .fromValue v => p.set_from_value v
  | .fromNormal x => p.set_from_normal (Normal.new x)

/-- Apply a finite sequence of entry-point calls to an `IntParam`. -/
def IntParam.applyOps (p : IntParam) (ops : List IntOp) : IntParam :=
  ops.foldl IntParam.applyOp p

/-- One mutation of a `LogDBParam`. -/
inductive LogOp where
  | fromValue (v : ℚ)
  | fromNormal (x : ℚ)

/-- Apply one entry-point call to a `LogDBParam`. -/
noncomputable def LogDBParam.applyOp (p : LogDBParam) (op : LogOp) : LogDBParam :=
  match op with
  | .fromValue v => p.set_from_value (v : ℝ)
  | .fromNormal x => p.set_from_normal (Normal.new (x : ℝ))

/-- Apply a finite sequence of entry-point calls to a `LogDBParam`. -/
noncomputable def LogDBParam.applyOps (p : LogDBParam) (ops : List LogOp) :
    LogDBParam :=
  ops.foldl LogDBParam.applyOp p

/-- One mutation of an `OctaveParam`. -/
inductive OctOp where
  | fromValue (v : ℚ)
  | fromNormal (x : ℚ)

/-- Apply one entry-point call to an `OctaveParam`. -/
noncomputable def OctaveParam.applyOp (p : OctaveParam) (op : OctOp) : OctaveParam :=
  match op with
  | .fromValue v => p.set_from_value (v : ℝ)
  | .fromNormal x => p.set_from_normal (Normal.new (x : ℝ))

/-- Apply a finite sequence of entry-point calls to an `OctaveParam`. -/
noncomputable def OctaveParam.applyOps (p : OctaveParam) (ops : List OctOp) :
    OctaveParam :=
  ops.foldl OctaveParam.applyOp p

/-- Modelled from the spec (refinement comparison for the claimed
LogDBParam forward formula): for value < 0 it claims
normal = zero_normal * (1 - sqrt(1 - value/min)); for value > 0,
normal = zero_normal + (1-zero_normal) * sqrt(value/max); 0 maps to
zero_normal. -/
noncomputable def specLogDBValueToNormal (zero_normal min max value : ℝ) : ℝ :=
  if value = 0 then zero_normal
  else if value < 0 then zero_normal * (1 - Real.sqrt (1 - value / min))
  else zero_normal + (1 - zero_normal) * Real.sqrt (value / max)

/-! ## Theorems -/

theorem Normal.new_val_pos_iff (y : ℚ) : 0 < (Normal.new y).val ↔ 0 < y := by
  unfold Normal.new
  split
  · constructor
    · intro h
      exact absurd h (lt_irrefl 0)
    · intro h
      exact absurd h (not_lt.mpr (le_of_lt (by assumption)))
  · split
    · constructor
      · intro _
        exact lt_trans zero_lt_one (by assumption)
      · intro _
        exact zero_lt_one
    · exact Iff.rfl

/-- C10: while dragging, a CursorMoved event with layout bounds of width
zero is a complete no-op: no change message is emitted and the gesture
state (in particular `continuous_normal` and `prev_drag_x`) is left
unchanged, because the delta division is guarded by `bounds_width != 0`. -/
theorem c10_zero_width_guard (w : HSliderW) (s : SliderState)
    (bounds : SliderRect) (cx : ℚ) (hdrag : s.is_dragging = true)
    (hw : bounds.width = 0) :
    w.on_event s bounds (.cursorMoved cx) = (s, []) := by
  simp [HSliderW.on_event, hdrag, hw]

theorem c10_zero_width_guard_witness :
    (HSliderW.new 0 (Normal.new (1/2)) (Normal.new (1/2))).on_event
      { is_dragging := true, prev_drag_x := 4, continuous_normal := 1/2,
        pressed_modifiers_match := false, last_click := none }
      { x := 0, y := 0, width := 0, height := 10 }
      (.cursorMoved 9) =
    ({ is_dragging := true, prev_drag_x := 4, continuous_normal := 1/2,
       pressed_modifiers_match := false, last_click := none }, []) :=
  c10_zero_width_guard _ _ _ _ rfl rfl

/-- C8: while dragging past the lower boundary (the unclamped
accumulator `continuous_normal` is negative while the emitted Normal is
clamped at 0), a further move applies its delta to the accumulator, not
to the clamped Normal: the new accumulator is exactly
`continuous_normal + (cursor_x - prev_drag_x) / width`, and the emitted
Normal becomes positive again exactly when the (scaled) reversed
distance exceeds the overshoot `-continuous_normal`. -/
theorem c8_boundary_recovery (w : HSliderW) (s : SliderState)
    (bounds : SliderRect) (cx : ℚ) (hdrag : s.is_dragging = true)
    (hmod : s.pressed_modifiers_match = false) (hw : 0 < bounds.width)
    (hcn : s.continuous_normal < 0) :
    w.on_event s bounds (.cursorMoved cx) =
      ({ s with continuous_normal := s.continuous_normal + (cx - s.prev_drag_x) / bounds.width, prev_drag_x := cx },
        [(w.id, Normal.new (s.continuous_normal +
            (cx - s.prev_drag_x) / bounds.width))]) ∧
    (0 < (Normal.new (s.continuous_normal +
        (cx - s.prev_drag_x) / bounds.width)).val ↔
      -s.continuous_normal < (cx - s.prev_drag_x) / bounds.width) := by
  constructor
  · simp [HSliderW.on_event, hdrag, hmod, ne_of_gt hw]
  · rw [Normal.new_val_pos_iff]
    constructor
    · intro h
      linarith
    · intro h
      linarith

theorem c8_boundary_recovery_witness :
    (HSliderW.new 0 (Normal.new 0) (Normal.new 0)).on_event
        { is_dragging := true, prev_drag_x := 10, continuous_normal := -(1/5),
          pressed_modifiers_match := false, last_click := none }
        { x := 0, y := 0, width := 100, height := 10 }
        (.cursorMoved 40) =
      ({ is_dragging := true, prev_drag_x := 40, continuous_normal := 1/10,
         pressed_modifiers_match := false, last_click := none },
        [(0, Normal.new (1/10))]) ∧
      (0 < (Normal.new (1/10 : ℚ)).val ↔ (1/5 : ℚ) < 3/10) := by
  have h := c8_boundary_recovery (HSliderW.new 0 (Normal.new 0) (Normal.new 0))
    { is_dragging := true, prev_drag_x := 10, continuous_normal := -(1/5),
      pressed_modifiers_match := false, last_click := none }
    { x := 0, y := 0, width := 100, height := 10 } 40
    rfl rfl (by norm_num) (by norm_num)
  obtain ⟨h1, h2⟩ := h
  constructor
  · rw [h1]
    norm_num [HSliderW.new]
  · have h3 : (-(1/5 : ℚ) + (40 - 10) / 100) = 1/10 := by norm_num
    rw [h3] at h2
    rw [h2]
    norm_num

/-- C7 (amended): in the Idle state, a primary-button press inside the
widget bounds that is classified as a single click transitions to
Dragging and records the drag anchor (`prev_drag_x`) as the current
cursor x position; `continuous_normal` is NOT reseeded by the press (it
keeps whatever value it had, having been seeded at `State::new` and
resynchronized on button release), and no message is emitted. -/
theorem c7_press_transition (w : HSliderW) (s : SliderState)
    (bounds : SliderRect) (cx cy : ℚ) (hidle : s.is_dragging = false)
    (hin : bounds.contains cx cy = true) :
    w.on_event s bounds (.leftPressed cx cy .single) =
      ({ s with is_dragging := true, prev_drag_x := cx, last_click := some (cx, cy) }, []) := by
  simp [HSliderW.on_event, hin]

theorem c7_press_transition_witness :
    (HSliderW.new 0 (Normal.new (7/10)) (Normal.new (1/2))).on_event
        (SliderState.new (Normal.new (3/10)))
        { x := 0, y := 0, width := 100, height := 10 }
        (.leftPressed 50 5 .single) =
      ({ is_dragging := true, prev_drag_x := 50, continuous_normal := 3/10,
         pressed_modifiers_match := false, last_click := some (50, 5) },
        []) := by
  have h := c7_press_transition (HSliderW.new 0 (Normal.new (7/10)) (Normal.new (1/2)))
    (SliderState.new (Normal.new (3/10)))
    { x := 0, y := 0, width := 100, height := 10 } 50 5 rfl
    (by norm_num [SliderRect.contains])
  rw [h]
  norm_num [SliderState.new, Normal.new]

/-- C7 counterexample to the claim as stated: a single-click press in
Idle does transition to Dragging, but it does not seed
`continuous_normal` from the Param current Normal at that moment. Here
the widget was built from a Param whose Normal is 0.7 while the slider
state still holds `continuous_normal = 0.3` (seeded at `State::new` from
an earlier Param value); after the press the accumulator is still 0.3,
not 0.7. -/
theorem c7_press_counterexample :
    (((HSliderW.new 0 (Normal.new (7/10)) (Normal.new (1/2))).on_event
        (SliderState.new (Normal.new (3/10)))
        { x := 0, y := 0, width := 100, height := 10 }
        (.leftPressed 50 5 .single)).1.is_dragging = true) ∧
    (((HSliderW.new 0 (Normal.new (7/10)) (Normal.new (1/2))).on_event
        (SliderState.new (Normal.new (3/10)))
        { x := 0, y := 0, width := 100, height := 10 }
        (.leftPressed 50 5 .single)).1.continuous_normal = 3/10) ∧
    (HSliderW.new 0 (Normal.new (7/10)) (Normal.new (1/2))).normal.val = 7/10 ∧
    (3/10 : ℚ) ≠ 7/10 := by
  refine ⟨?_, ?_, ?_, by norm_num⟩ <;>
    norm_num [HSliderW.on_event, HSliderW.new, SliderState.new,
      SliderRect.contains, Normal.new]

theorem FloatParam.float_set_from_normal_idem (p : FloatParam) (n : Normal ℚ) :
    (p.set_from_normal n).set_from_normal n = p.set_from_normal n := by
  simp only [FloatParam.set_from_normal]
  split_ifs <;> simp_all

theorem FloatParam.float_set_from_value_self (p : FloatParam) :
    p.set_from_value p.value = p := by
  simp [FloatParam.set_from_value]

theorem FloatParam.float_set_from_normal_self (p : FloatParam) :
    p.set_from_normal p.normal = p := by
  simp [FloatParam.set_from_normal]

theorem IntParam.int_set_from_normal_idem (p : IntParam) (n : Normal ℚ) :
    (p.set_from_normal n).set_from_normal n = p.set_from_normal n := by
  simp only [IntParam.set_from_normal]
  split_ifs <;>
    simp_all [IntParam.constrain, IntParam.normal_to_value,
      IntParam.value_to_normal]

theorem IntParam.int_set_from_value_self (p : IntParam) :
    p.set_from_value p.value = p := by
  simp [IntParam.set_from_value]

theorem IntParam.int_set_from_normal_self (p : IntParam) :
    p.set_from_normal p.normal = p := by
  simp [IntParam.set_from_normal]

theorem LogDBParam.log_set_from_normal_idem (p : LogDBParam) (n : Normal ℝ) :
    (p.set_from_normal n).set_from_normal n = p.set_from_normal n := by
  simp only [LogDBParam.set_from_normal]
  split_ifs <;> simp_all

theorem LogDBParam.log_set_from_value_self (p : LogDBParam) :
    p.set_from_value p.value = p := by
  simp [LogDBParam.set_from_value]

theorem LogDBParam.log_set_from_normal_self (p : LogDBParam) :
    p.set_from_normal p.normal = p := by
  simp [LogDBParam.set_from_normal]

theorem OctaveParam.oct_set_from_normal_idem (p : OctaveParam) (n : Normal ℝ) :
    (p.set_from_normal n).set_from_normal n = p.set_from_normal n := by
  simp only [OctaveParam.set_from_normal]
  split_ifs <;> simp_all

theorem OctaveParam.oct_set_from_value_self (p : OctaveParam) :
    p.set_from_value p.value = p := by
  simp [OctaveParam.set_from_value]

theorem OctaveParam.oct_set_from_normal_self (p : OctaveParam) :
    p.set_from_normal p.normal = p := by
  simp [OctaveParam.set_from_normal]

/-- C9: for every Param variant, calling `set_from_normal` twice with
the same Normal leaves the whole param state (in particular `value`)
unchanged on the second call, and both `set_from_value` and
`set_from_normal` are no-ops when the argument equals the currently
stored value respectively Normal. -/
theorem c9_setter_idempotence :
    (∀ (p : FloatParam) (n : Normal ℚ),
      (p.set_from_normal n).set_from_normal n = p.set_from_normal n ∧
      p.set_from_value p.value = p ∧ p.set_from_normal p.normal = p) ∧
    (∀ (p : IntParam) (n : Normal ℚ),
      (p.set_from_normal n).set_from_normal n = p.set_from_normal n ∧
      p.set_from_value p.value = p ∧ p.set_from_normal p.normal = p) ∧
    (∀ (p : LogDBParam) (n : Normal ℝ),
      (p.set_from_normal n).set_from_normal n = p.set_from_normal n ∧
      p.set_from_value p.value = p ∧ p.set_from_normal p.normal = p) ∧
    (∀ (p : OctaveParam) (n : Normal ℝ),
      (p.set_from_normal n).set_from_normal n = p.set_from_normal n ∧
      p.set_from_value p.value = p ∧ p.set_from_normal p.normal = p) := by
  refine ⟨fun p n => ⟨?_, ?_, ?_⟩, fun p n => ⟨?_, ?_, ?_⟩,
    fun p n => ⟨?_, ?_, ?_⟩, fun p n => ⟨?_, ?_, ?_⟩⟩
  · exact FloatParam.float_set_from_normal_idem p n
  · exact FloatParam.float_set_from_value_self p
  · exact FloatParam.float_set_from_normal_self p
  · exact IntParam.int_set_from_normal_idem p n
  · exact IntParam.int_set_from_value_self p
  · exact IntParam.int_set_from_normal_self p
  · exact LogDBParam.log_set_from_normal_idem p n
  · exact LogDBParam.log_set_from_value_self p
  · exact LogDBParam.log_set_from_normal_self p
  · exact OctaveParam.oct_set_from_normal_idem p n
  · exact OctaveParam.oct_set_from_value_self p
  · exact OctaveParam.oct_set_from_normal_self p

theorem FloatParam.float_applyOp_normal_mem (p : FloatParam) (op : FloatOp)
    (h : 0 ≤ p.normal.val ∧ p.normal.val ≤ 1) :
    0 ≤ (p.applyOp op).normal.val ∧ (p.applyOp op).normal.val ≤ 1 := by
  cases op <;>
    simp only [FloatParam.applyOp, FloatParam.set_from_value,
      FloatParam.set_from_normal, FloatParam.value_to_normal] <;>
    split_ifs <;>
    first
      | exact h
      | exact ⟨Normal.new_val_nonneg _, Normal.new_val_le_one _⟩

theorem FloatParam.float_applyOps_normal_mem (p : FloatParam) (ops : List FloatOp)
    (h : 0 ≤ p.normal.val ∧ p.normal.val ≤ 1) :
    0 ≤ (p.applyOps ops).normal.val ∧ (p.applyOps ops).normal.val ≤ 1 := by
  induction ops generalizing p with
  | nil => exact h
  | cons op ops ih => exact ih _ (FloatParam.float_applyOp_normal_mem p op h)

theorem FloatParam.float_newRaw_normal_mem (id : ℕ) (min max v dv : ℚ) :
    0 ≤ (FloatParam.newRaw id min max v dv).normal.val ∧
      (FloatParam.newRaw id min max v dv).normal.val ≤ 1 := by
  simp only [FloatParam.newRaw, FloatParam.value_to_normal]
  exact ⟨Normal.new_val_nonneg _, Normal.new_val_le_one _⟩

theorem IntParam.int_applyOp_normal_mem (p : IntParam) (op : IntOp)
    (h : 0 ≤ p.normal.val ∧ p.normal.val ≤ 1) :
    0 ≤ (p.applyOp op).normal.val ∧ (p.applyOp op).normal.val ≤ 1 := by
  cases op <;>
    simp only [IntParam.applyOp, IntParam.set_from_value,
      IntParam.set_from_normal, IntParam.value_to_normal] <;>
    split_ifs <;>
    first
      | exact h
      | exact ⟨Normal.new_val_nonneg _, Normal.new_val_le_one _⟩

theorem IntParam.int_applyOps_normal_mem (p : IntParam) (ops : List IntOp)
    (h : 0 ≤ p.normal.val ∧ p.normal.val ≤ 1) :
    0 ≤ (p.applyOps ops).normal.val ∧ (p.applyOps ops).normal.val ≤ 1 := by
  induction ops generalizing p with
  | nil => exact h
  | cons op ops ih => exact ih _ (IntParam.int_applyOp_normal_mem p op h)

theorem IntParam.int_newRaw_normal_mem (id : ℕ) (min max v dv : ℤ) :
    0 ≤ (IntParam.newRaw id min max v dv).normal.val ∧
      (IntParam.newRaw id min max v dv).normal.val ≤ 1 := by
  simp only [IntParam.newRaw, IntParam.value_to_normal]
  exact ⟨Normal.new_val_nonneg _, Normal.new_val_le_one _⟩

theorem LogDBParam.value_to_normal_mem (p : LogDBParam)
    (hz : 0 ≤ p.zero_normal.val ∧ p.zero_normal.val ≤ 1) (v : ℝ) :
    0 ≤ (p.value_to_normal v).val ∧ (p.value_to_normal v).val ≤ 1 := by
  unfold LogDBParam.value_to_normal
  split_ifs
  · constructor
    · show (0 : ℝ) ≤ ((p.zero_normal.val : ℚ) : ℝ)
      exact_mod_cast hz.1
    · show ((p.zero_normal.val : ℚ) : ℝ) ≤ 1
      exact_mod_cast hz.2
  all_goals exact ⟨Normal.new_val_nonneg _, Normal.new_val_le_one _⟩

theorem LogDBParam.applyOp_inv (p : LogDBParam) (op : LogOp)
    (h : (0 ≤ p.normal.val ∧ p.normal.val ≤ 1) ∧
      (0 ≤ p.zero_normal.val ∧ p.zero_normal.val ≤ 1)) :
    (0 ≤ (p.applyOp op).normal.val ∧ (p.applyOp op).normal.val ≤ 1) ∧
      (0 ≤ (p.applyOp op).zero_normal.val ∧
        (p.applyOp op).zero_normal.val ≤ 1) := by
  cases op <;>
    simp only [LogDBParam.applyOp, LogDBParam.set_from_value,
      LogDBParam.set_from_normal] <;>
    split_ifs <;>
    first
      | exact h
      | exact ⟨p.value_to_normal_mem h.2 _, h.2⟩
      | exact ⟨⟨Normal.new_val_nonneg _, Normal.new_val_le_one _⟩, h.2⟩

theorem LogDBParam.applyOps_inv (p : LogDBParam) (ops : List LogOp)
    (h : (0 ≤ p.normal.val ∧ p.normal.val ≤ 1) ∧
      (0 ≤ p.zero_normal.val ∧ p.zero_normal.val ≤ 1)) :
    (0 ≤ (p.applyOps ops).normal.val ∧ (p.applyOps ops).normal.val ≤ 1) ∧
      (0 ≤ (p.applyOps ops).zero_normal.val ∧
        (p.applyOps ops).zero_normal.val ≤ 1) := by
  induction ops generalizing p with
  | nil => exact h
  | cons op ops ih => exact ih _ (p.applyOp_inv op h)

set_option maxHeartbeats 2000000 in
theorem LogDBParam.newRaw_inv (id : ℕ) (min max v dv zn : ℚ) :
    (0 ≤ (LogDBParam.newRaw id min max v dv (Normal.new zn)).normal.val ∧
      (LogDBParam.newRaw id min max v dv (Normal.new zn)).normal.val ≤ 1) ∧
    (0 ≤ (LogDBParam.newRaw id min max v dv (Normal.new zn)).zero_normal.val ∧
      (LogDBParam.newRaw id min max v dv (Normal.new zn)).zero_normal.val ≤ 1) := by
  have hz : 0 ≤ (Normal.new zn).val ∧ (Normal.new zn).val ≤ 1 :=
    ⟨Normal.new_val_nonneg _, Normal.new_val_le_one _⟩
  constructor
  · show 0 ≤ (LogDBParam.value_to_normal _ _).val ∧
      (LogDBParam.value_to_normal _ _).val ≤ 1
    exact LogDBParam.value_to_normal_mem _ hz _
  · exact hz

theorem OctaveParam.oct_applyOp_normal_mem (p : OctaveParam) (op : OctOp)
    (h : 0 ≤ p.normal.val ∧ p.normal.val ≤ 1) :
    0 ≤ (p.applyOp op).normal.val ∧ (p.applyOp op).normal.val ≤ 1 := by
  cases op <;>
    simp only [OctaveParam.applyOp, OctaveParam.set_from_value,
      OctaveParam.set_from_normal, OctaveParam.value_to_normal] <;>
    split_ifs <;>
    first
      | exact h
      | exact ⟨Normal.new_val_nonneg _, Normal.new_val_le_one _⟩

theorem OctaveParam.oct_applyOps_normal_mem (p : OctaveParam) (ops : List OctOp)
    (h : 0 ≤ p.normal.val ∧ p.normal.val ≤ 1) :
    0 ≤ (p.applyOps ops).normal.val ∧ (p.applyOps ops).normal.val ≤ 1 := by
  induction ops generalizing p with
  | nil => exact h
  | cons op ops ih => exact ih _ (OctaveParam.oct_applyOp_normal_mem p op h)

theorem OctaveParam.oct_newRaw_normal_mem (id : ℕ) (min max v dv : ℚ) :
    0 ≤ (OctaveParam.newRaw id min max v dv).normal.val ∧
      (OctaveParam.newRaw id min max v dv).normal.val ≤ 1 := by
  simp only [OctaveParam.newRaw, OctaveParam.value_to_normal]
  exact ⟨Normal.new_val_nonneg _, Normal.new_val_le_one _⟩

/-- C2: for every Param variant, starting from a constructed param,
after any finite sequence of `set_from_value` / `set_from_normal` calls
(with arbitrary, possibly out-of-range arguments; a `Normal` argument
is whatever `Normal::new` made of an arbitrary scalar) the stored
Normal n satisfies `0 <= n.value() <= 1`. -/
theorem c2_normal_in_range :
    (∀ (id : ℕ) (min max v dv : ℚ), min < max → ∀ ops : List FloatOp,
      0 ≤ ((FloatParam.newRaw id min max v dv).applyOps ops).normal.val ∧
        ((FloatParam.newRaw id min max v dv).applyOps ops).normal.val ≤ 1) ∧
    (∀ (id : ℕ) (min max v dv : ℤ), min < max → ∀ ops : List IntOp,
      0 ≤ ((IntParam.newRaw id min max v dv).applyOps ops).normal.val ∧
        ((IntParam.newRaw id min max v dv).applyOps ops).normal.val ≤ 1) ∧
    (∀ (id : ℕ) (min max v dv zn : ℚ), min < max → min ≤ 0 → 0 ≤ max →
      ∀ ops : List LogOp,
      0 ≤ ((LogDBParam.newRaw id min max v dv (Normal.new zn)).applyOps
          ops).normal.val ∧
        ((LogDBParam.newRaw id min max v dv (Normal.new zn)).applyOps
          ops).normal.val ≤ 1) ∧
    (∀ (id : ℕ) (min max v dv : ℚ), min < max → ∀ ops : List OctOp,
      0 ≤ ((OctaveParam.newRaw id min max v dv).applyOps ops).normal.val ∧
        ((OctaveParam.newRaw id min max v dv).applyOps ops).normal.val ≤ 1) := by
  refine ⟨fun id min max v dv _ ops => ?_, fun id min max v dv _ ops => ?_,
    fun id min max v dv zn _ _ _ ops => ?_, fun id min max v dv _ ops => ?_⟩
  · exact FloatParam.float_applyOps_normal_mem _ ops
      (FloatParam.float_newRaw_normal_mem id min max v dv)
  · exact IntParam.int_applyOps_normal_mem _ ops
      (IntParam.int_newRaw_normal_mem id min max v dv)
  · exact (LogDBParam.applyOps_inv _ ops
      (LogDBParam.newRaw_inv id min max v dv zn)).1
  · exact OctaveParam.oct_applyOps_normal_mem _ ops
      (OctaveParam.oct_newRaw_normal_mem id min max v dv)

theorem c2_normal_in_range_witness :
    (0 ≤ ((FloatParam.newRaw 0 0 10 5 5).applyOps
        [.fromNormal 2, .fromValue 50]).normal.val ∧
      ((FloatParam.newRaw 0 0 10 5 5).applyOps
        [.fromNormal 2, .fromValue 50]).normal.val ≤ 1) ∧
    (0 ≤ ((IntParam.newRaw 0 0 2 1 1).applyOps
        [.fromNormal (-3), .fromValue 7]).normal.val ∧
      ((IntParam.newRaw 0 0 2 1 1).applyOps
        [.fromNormal (-3), .fromValue 7]).normal.val ≤ 1) ∧
    (0 ≤ ((LogDBParam.newRaw 0 (-12) 12 0 0 (Normal.new (1/2))).applyOps
        [.fromValue (-100), .fromNormal 2]).normal.val ∧
      ((LogDBParam.newRaw 0 (-12) 12 0 0 (Normal.new (1/2))).applyOps
        [.fromValue (-100), .fromNormal 2]).normal.val ≤ 1) ∧
    (0 ≤ ((OctaveParam.newRaw 0 20 20480 1000 1000).applyOps
        [.fromValue 5, .fromNormal (-1)]).normal.val ∧
      ((OctaveParam.newRaw 0 20 20480 1000 1000).applyOps
        [.fromValue 5, .fromNormal (-1)]).normal.val ≤ 1) :=
  ⟨c2_normal_in_range.1 0 0 10 5 5 (by norm_num) [.fromNormal 2, .fromValue 50],
    c2_normal_in_range.2.1 0 0 2 1 1 (by norm_num)
      [.fromNormal (-3), .fromValue 7],
    c2_normal_in_range.2.2.1 0 (-12) 12 0 0 (1/2) (by norm_num) (by norm_num)
      (by norm_num) [.fromValue (-100), .fromNormal 2],
    c2_normal_in_range.2.2.2 0 20 20480 1000 1000 (by norm_num)
      [.fromValue 5, .fromNormal (-1)]⟩

theorem FloatParam.float_newRaw_min (id : ℕ) (min max v dv : ℚ) :
    (FloatParam.newRaw id min max v dv).min = min := rfl

theorem FloatParam.float_newRaw_max (id : ℕ) (min max v dv : ℚ) :
    (FloatParam.newRaw id min max v dv).max = max := rfl

theorem IntParam.int_newRaw_min (id : ℕ) (min max v dv : ℤ) :
    (IntParam.newRaw id min max v dv).min = min := rfl

theorem IntParam.int_newRaw_max (id : ℕ) (min max v dv : ℤ) :
    (IntParam.newRaw id min max v dv).max = max := rfl

theorem LogDBParam.log_newRaw_min (id : ℕ) (min max v dv : ℚ) (zn : Normal ℚ) :
    (LogDBParam.newRaw id min max v dv zn).min = min := rfl

theorem LogDBParam.log_newRaw_max (id : ℕ) (min max v dv : ℚ) (zn : Normal ℚ) :
    (LogDBParam.newRaw id min max v dv zn).max = max := rfl

theorem OctaveParam.oct_newRaw_min (id : ℕ) (min max v dv : ℚ) :
    (OctaveParam.newRaw id min max v dv).min =
      if min < 20 then 20 else min := rfl

theorem OctaveParam.oct_newRaw_max (id : ℕ) (min max v dv : ℚ) :
    (OctaveParam.newRaw id min max v dv).max =
      if max > 20480 then 20480 else max := rfl

/-- C3 (amended): construction panics exactly when `max <= min` (and,
for LogDBParam, additionally when `min > 0` or `max < 0`) and succeeds
otherwise; every successfully constructed FloatParam, IntParam and
LogDBParam has effective bounds with `max > min`. For OctaveParam the
assert checks the REQUESTED bounds only; the effective bounds are the
requested ones clamped into the spectrum (`min` raised to 20 when below
it, `max` lowered to 20480 when above it), which need not satisfy
`max > min` when the requested range lies outside the spectrum. -/
theorem c3_construction :
    (∀ (id : ℕ) (min max v dv : ℚ),
      ((FloatParam.new id min max v dv).isSome = true ↔ min < max) ∧
      ∀ p, FloatParam.new id min max v dv = some p → p.min < p.max) ∧
    (∀ (id : ℕ) (min max v dv : ℤ),
      ((IntParam.new id min max v dv).isSome = true ↔ min < max) ∧
      ∀ p, IntParam.new id min max v dv = some p → p.min < p.max) ∧
    (∀ (id : ℕ) (min max v dv zn : ℚ),
      ((LogDBParam.new id min max v dv (Normal.new zn)).isSome = true ↔
        (min < max ∧ min ≤ 0 ∧ 0 ≤ max)) ∧
      ∀ p, LogDBParam.new id min max v dv (Normal.new zn) = some p →
        p.min < p.max) ∧
    (∀ (id : ℕ) (min max v dv : ℚ),
      ((OctaveParam.new id min max v dv).isSome = true ↔ min < max) ∧
      ∀ p, OctaveParam.new id min max v dv = some p →
        p.min = (if min < 20 then 20 else min) ∧
        p.max = (if max > 20480 then 20480 else max)) := by
  refine ⟨fun id min max v dv => ⟨?_, ?_⟩, fun id min max v dv => ⟨?_, ?_⟩,
    fun id min max v dv zn => ⟨?_, ?_⟩, fun id min max v dv => ⟨?_, ?_⟩⟩
  · simp only [FloatParam.new]
    split_ifs with h <;> simp [h]
  · intro p hp
    simp only [FloatParam.new] at hp
    split_ifs at hp with h
    · cases hp
      rw [FloatParam.float_newRaw_min, FloatParam.float_newRaw_max]
      exact h
  · simp only [IntParam.new]
    split_ifs with h <;> simp [h]
  · intro p hp
    simp only [IntParam.new] at hp
    split_ifs at hp with h
    · cases hp
      rw [IntParam.int_newRaw_min, IntParam.int_newRaw_max]
      exact h
  · simp only [LogDBParam.new]
    split_ifs with h
    · simp only [Option.isSome_some, true_iff]
      exact ⟨h.1, h.2.2, h.2.1⟩
    · simp only [Option.isSome_none, Bool.false_eq_true, false_iff]
      intro hc
      exact h ⟨hc.1, hc.2.2, hc.2.1⟩
  · intro p hp
    simp only [LogDBParam.new] at hp
    split_ifs at hp with h
    · cases hp
      rw [LogDBParam.log_newRaw_min, LogDBParam.log_newRaw_max]
      exact h.1
  · simp only [OctaveParam.new]
    split_ifs with h <;> simp [h]
  · intro p hp
    simp only [OctaveParam.new] at hp
    split_ifs at hp with h
    · cases hp
      rw [OctaveParam.oct_newRaw_min, OctaveParam.oct_newRaw_max]
      exact ⟨rfl, rfl⟩

theorem c3_construction_witness :
    ((FloatParam.new 0 0 1 0 0).isSome = true ↔ (0 : ℚ) < 1) ∧
    (FloatParam.newRaw 0 0 1 0 0).min < (FloatParam.newRaw 0 0 1 0 0).max ∧
    ((IntParam.new 0 0 2 1 1).isSome = true ↔ (0 : ℤ) < 2) ∧
    (IntParam.newRaw 0 0 2 1 1).min < (IntParam.newRaw 0 0 2 1 1).max ∧
    ((LogDBParam.new 0 (-12) 12 0 0 (Normal.new (1/2))).isSome = true ↔
      ((-12 : ℚ) < 12 ∧ (-12 : ℚ) ≤ 0 ∧ (0 : ℚ) ≤ 12)) ∧
    (LogDBParam.newRaw 0 (-12) 12 0 0 (Normal.new (1/2))).min <
      (LogDBParam.newRaw 0 (-12) 12 0 0 (Normal.new (1/2))).max ∧
    ((OctaveParam.new 0 5 30000 1000 1000).isSome = true ↔ (5 : ℚ) < 30000) ∧
    (OctaveParam.newRaw 0 5 30000 1000 1000).min =
      (if (5 : ℚ) < 20 then 20 else 5) := by
  refine ⟨(c3_construction.1 0 0 1 0 0).1, ?_, (c3_construction.2.1 0 0 2 1 1).1,
    ?_, (c3_construction.2.2.1 0 (-12) 12 0 0 (1/2)).1, ?_,
    (c3_construction.2.2.2 0 5 30000 1000 1000).1, ?_⟩
  · exact (c3_construction.1 0 0 1 0 0).2 _
      (by simp only [FloatParam.new]; norm_num)
  · exact (c3_construction.2.1 0 0 2 1 1).2 _
      (by simp only [IntParam.new]; norm_num)
  · exact (c3_construction.2.2.1 0 (-12) 12 0 0 (1/2)).2 _
      (by simp only [LogDBParam.new]; norm_num)
  · exact ((c3_construction.2.2.2 0 5 30000 1000 1000).2 _
      (by simp only [OctaveParam.new]; norm_num)).1

/-- C3 counterexample to the part stating that every successfully
constructed param has effective bounds with max > min:
`OctaveParam::new(id, 5, 10, 7, 7)`
passes the `assert!(max > min)` on the requested bounds (10 > 5), but the
spectrum clamp then raises `min` to 20 while leaving `max` at 10, so the
constructed param has effective `max < min`. -/
theorem c3_construction_counterexample :
    OctaveParam.new 0 5 10 7 7 = some (OctaveParam.newRaw 0 5 10 7 7) ∧
    (OctaveParam.newRaw 0 5 10 7 7).min = 20 ∧
    (OctaveParam.newRaw 0 5 10 7 7).max = 10 ∧
    ¬((OctaveParam.newRaw 0 5 10 7 7).min <
      (OctaveParam.newRaw 0 5 10 7 7).max) := by
  refine ⟨by simp only [OctaveParam.new]; norm_num, ?_, ?_, ?_⟩
  · rw [OctaveParam.oct_newRaw_min]
    norm_num
  · rw [OctaveParam.oct_newRaw_max]
    norm_num
  · rw [OctaveParam.oct_newRaw_min, OctaveParam.oct_newRaw_max]
    norm_num

theorem rustRound_intCast (z : ℤ) : rustRound (z : ℚ) = z := by
  unfold rustRound
  split_ifs with h
  · rw [show ((z : ℚ) + 1/2) = ((z : ℤ) : ℚ) + 1/2 by push_cast; ring]
    rw [Int.floor_int_add]
    norm_num
  · rw [show (-(z : ℚ) + 1/2) = ((-z : ℤ) : ℚ) + 1/2 by push_cast; ring]
    rw [Int.floor_int_add]
    norm_num

theorem IntParam.constrain_of_mem (p : IntParam) (v : ℤ)
    (h1 : p.min ≤ v) (h2 : v ≤ p.max) : p.constrain v = v := by
  unfold IntParam.constrain
  split_ifs <;> omega

/-- Evaluation of `IntParam::set_from_normal` on a canonical param state
(as produced by construction and preserved by the setters): the stored
value is the constrained rounding of `normal.value() * range`, and the
stored Normal is recomputed from that value. -/
theorem IntParam.set_from_normal_eval (p : IntParam)
    (hr : p.range = ((p.max - p.min : ℤ) : ℚ))
    (hrr : p.range_recip = p.range⁻¹)
    (hmm : p.min < p.max)
    (hv1 : p.min ≤ p.value) (hv2 : p.value ≤ p.max)
    (hn : p.normal = p.value_to_normal p.value) (n : Normal ℚ) :
    (p.set_from_normal n).value =
        p.constrain (rustRound (n.val * p.range) + p.min) ∧
      (p.set_from_normal n).normal =
        p.value_to_normal (p.constrain (rustRound (n.val * p.range) + p.min)) := by
  have hrpos : (0 : ℚ) < p.range := by
    rw [hr]
    exact_mod_cast Int.sub_pos.mpr hmm
  by_cases h : p.normal = n
  · have hval : n.val = ((p.value - p.min : ℤ) : ℚ) * p.range_recip := by
      rw [← h, hn, IntParam.value_to_normal]
      refine Normal.new_of_mem _ ?_ ?_
      · apply mul_nonneg
        · exact_mod_cast Int.sub_nonneg.mpr hv1
        · rw [hrr]
          exact inv_nonneg.mpr (le_of_lt hrpos)
      · rw [hrr, ← div_eq_mul_inv, div_le_one hrpos, hr]
        exact_mod_cast Int.sub_le_sub_right hv2 p.min
    have hprod : n.val * p.range = ((p.value - p.min : ℤ) : ℚ) := by
      rw [hval, hrr, mul_assoc, inv_mul_cancel₀ (ne_of_gt hrpos), mul_one]
    have hround : rustRound (n.val * p.range) + p.min = p.value := by
      rw [hprod, rustRound_intCast]
      omega
    have hnoop : p.set_from_normal n = p := by
      rw [← h]
      exact IntParam.int_set_from_normal_self p
    rw [hnoop, hround, p.constrain_of_mem p.value hv1 hv2, ← hn]
    exact ⟨rfl, rfl⟩
  · have hne : p.normal ≠ n := h
    constructor <;>
      simp [IntParam.set_from_normal, if_pos hne, IntParam.normal_to_value]

theorem IntParam.set_from_normal_collapse (p : IntParam)
    (hr : p.range = ((p.max - p.min : ℤ) : ℚ))
    (hrr : p.range_recip = p.range⁻¹)
    (hmm : p.min < p.max)
    (hv1 : p.min ≤ p.value) (hv2 : p.value ≤ p.max)
    (hn : p.normal = p.value_to_normal p.value) (n1 n2 : Normal ℚ)
    (hround : rustRound (n1.val * p.range) = rustRound (n2.val * p.range)) :
    (p.set_from_normal n1).value = (p.set_from_normal n2).value ∧
      (p.set_from_normal n1).normal = (p.set_from_normal n2).normal := by
  have e1 := p.set_from_normal_eval hr hrr hmm hv1 hv2 hn n1
  have e2 := p.set_from_normal_eval hr hrr hmm hv1 hv2 hn n2
  rw [e1.1, e1.2, e2.1, e2.2, hround]
  exact ⟨rfl, rfl⟩

theorem IntParam.int_newRaw_range (id : ℕ) (min max v dv : ℤ) :
    (IntParam.newRaw id min max v dv).range = ((max - min : ℤ) : ℚ) := rfl

theorem IntParam.int_newRaw_range_recip (id : ℕ) (min max v dv : ℤ) :
    (IntParam.newRaw id min max v dv).range_recip =
      (IntParam.newRaw id min max v dv).range⁻¹ := rfl

theorem IntParam.int_newRaw_value (id : ℕ) (min max v dv : ℤ) :
    (IntParam.newRaw id min max v dv).value =
      if v ≤ min then min else if v ≥ max then max else v := rfl

theorem IntParam.int_newRaw_normal_canonical (id : ℕ) (min max v dv : ℤ) :
    (IntParam.newRaw id min max v dv).normal =
      (IntParam.newRaw id min max v dv).value_to_normal
        ((IntParam.newRaw id min max v dv).value) := rfl

theorem IntParam.int_newRaw_value_mem (id : ℕ) (min max v dv : ℤ)
    (h : min < max) :
    (IntParam.newRaw id min max v dv).min ≤
        (IntParam.newRaw id min max v dv).value ∧
      (IntParam.newRaw id min max v dv).value ≤
        (IntParam.newRaw id min max v dv).max := by
  rw [IntParam.int_newRaw_min, IntParam.int_newRaw_max, IntParam.int_newRaw_value]
  split_ifs <;> omega

/-- C4: `IntParam::set_from_normal` rounds `normal.value() * range` to
the nearest integer (half away from zero), constrains it, stores that as
the value, and recomputes the stored Normal from the rounded value
rather than storing the input Normal verbatim; hence two raw Normals
rounding to the same integer leave the param with the same stored value
and Normal. Construction establishes the canonical state the first two
parts assume, and the documented example
`IntParam::new(id,0,2,1,1); set_from_normal(0.8)` yields `value() == 2`
and `normal().value() == 1.0`. -/
theorem c4_int_quantization :
    (∀ (p : IntParam),
      p.range = ((p.max - p.min : ℤ) : ℚ) → p.range_recip = p.range⁻¹ →
      p.min < p.max → p.min ≤ p.value → p.value ≤ p.max →
      p.normal = p.value_to_normal p.value → ∀ n : Normal ℚ,
      (p.set_from_normal n).value =
          p.constrain (rustRound (n.val * p.range) + p.min) ∧
        (p.set_from_normal n).normal =
          p.value_to_normal
            (p.constrain (rustRound (n.val * p.range) + p.min))) ∧
    (∀ (p : IntParam),
      p.range = ((p.max - p.min : ℤ) : ℚ) → p.range_recip = p.range⁻¹ →
      p.min < p.max → p.min ≤ p.value → p.value ≤ p.max →
      p.normal = p.value_to_normal p.value → ∀ n1 n2 : Normal ℚ,
      rustRound (n1.val * p.range) = rustRound (n2.val * p.range) →
      (p.set_from_normal n1).value = (p.set_from_normal n2).value ∧
        (p.set_from_normal n1).normal = (p.set_from_normal n2).normal) ∧
    (∀ (id : ℕ) (min max v dv : ℤ), min < max →
      (IntParam.newRaw id min max v dv).range =
          (((IntParam.newRaw id min max v dv).max -
            (IntParam.newRaw id min max v dv).min : ℤ) : ℚ) ∧
        (IntParam.newRaw id min max v dv).range_recip =
          (IntParam.newRaw id min max v dv).range⁻¹ ∧
        (IntParam.newRaw id min max v dv).min <
          (IntParam.newRaw id min max v dv).max ∧
        (IntParam.newRaw id min max v dv).min ≤
          (IntParam.newRaw id min max v dv).value ∧
        (IntParam.newRaw id min max v dv).value ≤
          (IntParam.newRaw id min max v dv).max ∧
        (IntParam.newRaw id min max v dv).normal =
          (IntParam.newRaw id min max v dv).value_to_normal
            ((IntParam.newRaw id min max v dv).value)) ∧
    (((IntParam.newRaw 0 0 2 1 1).set_from_normal (Normal.new (8/10))).value
        = 2 ∧
      ((IntParam.newRaw 0 0 2 1 1).set_from_normal
        (Normal.new (8/10))).normal.val = 1) := by
  refine ⟨fun p hr hrr hmm hv1 hv2 hn n =>
      p.set_from_normal_eval hr hrr hmm hv1 hv2 hn n,
    fun p hr hrr hmm hv1 hv2 hn n1 n2 hround =>
      p.set_from_normal_collapse hr hrr hmm hv1 hv2 hn n1 n2 hround,
    fun id min max v dv h => ?_, ?_⟩
  · refine ⟨?_, IntParam.int_newRaw_range_recip id min max v dv, ?_,
      (IntParam.int_newRaw_value_mem id min max v dv h).1,
      (IntParam.int_newRaw_value_mem id min max v dv h).2,
      IntParam.int_newRaw_normal_canonical id min max v dv⟩
    · rw [IntParam.int_newRaw_range, IntParam.int_newRaw_min, IntParam.int_newRaw_max]
    · rw [IntParam.int_newRaw_min, IntParam.int_newRaw_max]
      exact h
  · have heval := (IntParam.newRaw 0 0 2 1 1).set_from_normal_eval
      (IntParam.int_newRaw_range 0 0 2 1 1) (IntParam.int_newRaw_range_recip 0 0 2 1 1)
      (by rw [IntParam.int_newRaw_min, IntParam.int_newRaw_max]; omega)
      (IntParam.int_newRaw_value_mem 0 0 2 1 1 (by omega)).1
      (IntParam.int_newRaw_value_mem 0 0 2 1 1 (by omega)).2
      (IntParam.int_newRaw_normal_canonical 0 0 2 1 1) (Normal.new (8/10))
    have hnval : (Normal.new (8/10 : ℚ)).val = 8/10 :=
      Normal.new_of_mem _ (by norm_num) (by norm_num)
    have hround : rustRound ((Normal.new (8/10 : ℚ)).val *
        (IntParam.newRaw 0 0 2 1 1).range) = 2 := by
      rw [hnval, IntParam.int_newRaw_range]
      unfold rustRound
      rw [if_pos (by norm_num)]
      norm_num
    have hcon : (IntParam.newRaw 0 0 2 1 1).constrain
        (rustRound ((Normal.new (8/10 : ℚ)).val *
          (IntParam.newRaw 0 0 2 1 1).range) + (IntParam.newRaw 0 0 2 1 1).min)
        = 2 := by
      rw [hround, IntParam.int_newRaw_min]
      unfold IntParam.constrain
      rw [IntParam.int_newRaw_min, IntParam.int_newRaw_max]
      norm_num
    constructor
    · rw [heval.1, hcon]
    · rw [heval.2, hcon, IntParam.value_to_normal, IntParam.int_newRaw_min,
        IntParam.int_newRaw_range_recip, IntParam.int_newRaw_range]
      rw [show (((2 - 0 : ℤ) : ℚ) * (((2 - 0 : ℤ) : ℚ))⁻¹) = 1 by norm_num]
      exact Normal.new_of_mem _ (by norm_num) (by norm_num)

theorem c4_int_quantization_witness :
    (((IntParam.newRaw 0 0 5 2 2).set_from_normal (Normal.new (1/2))).value =
        (IntParam.newRaw 0 0 5 2 2).constrain
          (rustRound ((Normal.new (1/2 : ℚ)).val *
            (IntParam.newRaw 0 0 5 2 2).range) +
            (IntParam.newRaw 0 0 5 2 2).min) ∧
      ((IntParam.newRaw 0 0 5 2 2).set_from_normal (Normal.new (1/2))).normal =
        (IntParam.newRaw 0 0 5 2 2).value_to_normal
          ((IntParam.newRaw 0 0 5 2 2).constrain
            (rustRound ((Normal.new (1/2 : ℚ)).val *
              (IntParam.newRaw 0 0 5 2 2).range) +
              (IntParam.newRaw 0 0 5 2 2).min))) ∧
    (((IntParam.newRaw 0 0 5 2 2).set_from_normal (Normal.new (33/100))).value =
        ((IntParam.newRaw 0 0 5 2 2).set_from_normal
          (Normal.new (39/100))).value ∧
      ((IntParam.newRaw 0 0 5 2 2).set_from_normal (Normal.new (33/100))).normal =
        ((IntParam.newRaw 0 0 5 2 2).set_from_normal
          (Normal.new (39/100))).normal) := by
  have hr := IntParam.int_newRaw_range 0 0 5 2 2
  have hrr := IntParam.int_newRaw_range_recip 0 0 5 2 2
  have hmm : (IntParam.newRaw 0 0 5 2 2).min <
      (IntParam.newRaw 0 0 5 2 2).max := by
    rw [IntParam.int_newRaw_min, IntParam.int_newRaw_max]
    omega
  have hv := IntParam.int_newRaw_value_mem 0 0 5 2 2 (by omega)
  have hn := IntParam.int_newRaw_normal_canonical 0 0 5 2 2
  constructor
  · exact c4_int_quantization.1 (IntParam.newRaw 0 0 5 2 2)
      hr hrr hmm hv.1 hv.2 hn (Normal.new (1/2))
  · refine c4_int_quantization.2.1 (IntParam.newRaw 0 0 5 2 2)
      hr hrr hmm hv.1 hv.2 hn (Normal.new (33/100)) (Normal.new (39/100)) ?_
    have h1 : (Normal.new (33/100 : ℚ)).val = 33/100 :=
      Normal.new_of_mem _ (by norm_num) (by norm_num)
    have h2 : (Normal.new (39/100 : ℚ)).val = 39/100 :=
      Normal.new_of_mem _ (by norm_num) (by norm_num)
    rw [h1, h2, hr]
    unfold rustRound
    rw [if_pos (by norm_num), if_pos (by norm_num)]
    norm_num

theorem logb_two_one_half : Real.logb 2 ((1 : ℝ)/2) = -1 := by
  rw [show ((1 : ℝ)/2) = 2⁻¹ by norm_num, Real.logb_inv,
    Real.logb_self_eq_one (by norm_num)]

theorem logb_two_512 : Real.logb 2 (512 : ℝ) = 9 := by
  rw [show (512 : ℝ) = 2 ^ (9 : ℕ) by norm_num, Real.logb_pow,
    Real.logb_self_eq_one (by norm_num)]
  norm_num

theorem logb_two_spectrum_bounds (v : ℝ) (h1 : 20 ≤ v) (h2 : v ≤ 20480) :
    -1 ≤ Real.logb 2 (v / 40) ∧ Real.logb 2 (v / 40) ≤ 9 := by
  constructor
  · rw [← logb_two_one_half]
    exact Real.logb_le_logb_of_le (by norm_num) (by norm_num) (by linarith)
  · rw [← logb_two_512]
    exact Real.logb_le_logb_of_le (by norm_num) (by linarith) (by linarith)

theorem octave_spectrum_to_normal_val (v : ℝ) (h1 : 20 ≤ v) (h2 : v ≤ 20480) :
    (octave_spectrum_to_normal v).val = (Real.logb 2 (v / 40) + 1) * (1/10) := by
  obtain ⟨hl, hu⟩ := logb_two_spectrum_bounds v h1 h2
  unfold octave_spectrum_to_normal
  exact Normal.new_of_mem _ (by linarith) (by linarith)

theorem octave_spectrum_to_normal_lt (a b : ℝ) (ha : 20 ≤ a) (hab : a < b)
    (hb : b ≤ 20480) :
    (octave_spectrum_to_normal a).val < (octave_spectrum_to_normal b).val := by
  rw [octave_spectrum_to_normal_val a ha (by linarith),
    octave_spectrum_to_normal_val b (by linarith) hb]
  have h := Real.logb_lt_logb (b := 2) (by norm_num)
    (show (0:ℝ) < a / 40 by linarith) (show a / 40 < b / 40 by linarith)
  linarith

theorem octave_spectrum_to_normal_le (a b : ℝ) (ha : 20 ≤ a) (hab : a ≤ b)
    (hb : b ≤ 20480) :
    (octave_spectrum_to_normal a).val ≤ (octave_spectrum_to_normal b).val := by
  rcases eq_or_lt_of_le hab with h | h
  · rw [h]
  · exact le_of_lt (octave_spectrum_to_normal_lt a b ha h hb)

theorem octave_spectrum_to_normal_20 :
    (octave_spectrum_to_normal (20 : ℝ)).val = 0 := by
  rw [octave_spectrum_to_normal_val 20 (by norm_num) (by norm_num),
    show ((20 : ℝ)/40) = 1/2 by norm_num, logb_two_one_half]
  norm_num

theorem octave_spectrum_to_normal_20480 :
    (octave_spectrum_to_normal (20480 : ℝ)).val = 1 := by
  rw [octave_spectrum_to_normal_val 20480 (by norm_num) (by norm_num),
    show ((20480 : ℝ)/40) = 512 by norm_num, logb_two_512]
  norm_num

theorem OctaveParam.oct_newRaw_min_spectrum_normal (id : ℕ) (min max v dv : ℚ) :
    (OctaveParam.newRaw id min max v dv).min_spectrum_normal =
      octave_spectrum_to_normal
        (((if min < 20 then 20 else min : ℚ)) : ℝ) := rfl

theorem OctaveParam.oct_newRaw_spectrum_normal_range (id : ℕ) (min max v dv : ℚ) :
    (OctaveParam.newRaw id min max v dv).spectrum_normal_range =
      (octave_spectrum_to_normal
        (((if max > 20480 then 20480 else max : ℚ)) : ℝ)).val -
      (octave_spectrum_to_normal
        (((if min < 20 then 20 else min : ℚ)) : ℝ)).val := rfl

/-- C6: requested OctaveParam bounds reaching outside the 10-octave
spectrum are silently narrowed to it (a `min` at or below 20 Hz becomes
20 Hz, a `max` at or above 20480 Hz becomes 20480 Hz), and for the
documented example `OctaveParam::new(id, 5, 30000, 1000, 1000)` the
effective bounds are `[20, 20480]` with `value_to_normal(20) == 0` and
`value_to_normal(20480) == 1`. -/
theorem c6_octave_clamping :
    (∀ (id : ℕ) (min max v dv : ℚ), min < max → min ≤ 20 → 20480 ≤ max →
      (OctaveParam.newRaw id min max v dv).min = 20 ∧
        (OctaveParam.newRaw id min max v dv).max = 20480) ∧
    ((OctaveParam.newRaw 0 5 30000 1000 1000).min = 20 ∧
      (OctaveParam.newRaw 0 5 30000 1000 1000).max = 20480 ∧
      ((OctaveParam.newRaw 0 5 30000 1000 1000).value_to_normal 20).val = 0 ∧
      ((OctaveParam.newRaw 0 5 30000 1000 1000).value_to_normal 20480).val
        = 1) := by
  have hmsn : (OctaveParam.newRaw 0 5 30000 1000 1000).min_spectrum_normal =
      octave_spectrum_to_normal (20 : ℝ) := by
    rw [OctaveParam.oct_newRaw_min_spectrum_normal,
      if_pos (by norm_num : (5 : ℚ) < 20)]
    norm_num
  have hrange : (OctaveParam.newRaw 0 5 30000 1000 1000).spectrum_normal_range
      = 1 := by
    rw [OctaveParam.oct_newRaw_spectrum_normal_range,
      if_pos (by norm_num : (30000 : ℚ) > 20480),
      if_pos (by norm_num : (5 : ℚ) < 20)]
    rw [show (((20480 : ℚ)) : ℝ) = (20480 : ℝ) by norm_num,
      show (((20 : ℚ)) : ℝ) = (20 : ℝ) by norm_num,
      octave_spectrum_to_normal_20480, octave_spectrum_to_normal_20]
    norm_num
  refine ⟨fun id min max v dv hmm h1 h2 => ?_, ?_, ?_, ?_, ?_⟩
  · rw [OctaveParam.oct_newRaw_min, OctaveParam.oct_newRaw_max]
    constructor
    · split_ifs <;> linarith
    · split_ifs <;> linarith
  · rw [OctaveParam.oct_newRaw_min]
    norm_num
  · rw [OctaveParam.oct_newRaw_max]
    norm_num
  · simp only [OctaveParam.value_to_normal]
    rw [hmsn, hrange, octave_spectrum_to_normal_20]
    norm_num [Normal.new]
  · simp only [OctaveParam.value_to_normal]
    rw [hmsn, hrange, octave_spectrum_to_normal_20,
      octave_spectrum_to_normal_20480]
    rw [show ((1 : ℝ) - 0) / 1 = 1 by norm_num]
    exact Normal.new_of_mem _ (by norm_num) (by norm_num)

theorem c6_octave_clamping_witness :
    (OctaveParam.newRaw 0 10 30000 500 500).min = 20 ∧
      (OctaveParam.newRaw 0 10 30000 500 500).max = 20480 :=
  c6_octave_clamping.1 0 10 30000 500 500 (by norm_num) (by norm_num)
    (by norm_num)

/-- Round trip for `FloatParam`: exact except for the snap-to-default
window. -/
theorem FloatParam.float_round_trip (p : FloatParam) (v : ℚ)
    (hr : p.range = p.max - p.min) (hrr : p.range_recip = p.range⁻¹)
    (hmm : p.min < p.max) (hv1 : p.min ≤ v) (hv2 : v ≤ p.max) :
    p.normal_to_value (p.value_to_normal v) = v ∨
      (p.default_value - 1/1000 < v ∧ v < p.default_value + 1/1000 ∧
        p.normal_to_value (p.value_to_normal v) = p.default_value) := by
  have hrpos : (0 : ℚ) < p.range := by
    rw [hr]
    linarith
  have hval : (p.value_to_normal v).val = (v - p.min) * p.range_recip := by
    unfold FloatParam.value_to_normal
    refine Normal.new_of_mem _ ?_ ?_
    · apply mul_nonneg (by linarith)
      rw [hrr]
      exact inv_nonneg.mpr (le_of_lt hrpos)
    · rw [hrr, ← div_eq_mul_inv, div_le_one hrpos, hr]
      linarith
  have harg : (p.value_to_normal v).val * p.range + p.min = v := by
    rw [hval, hrr, mul_assoc, inv_mul_cancel₀ (ne_of_gt hrpos), mul_one]
    ring
  simp only [FloatParam.normal_to_value]
  rw [harg]
  split_ifs with h
  · exact Or.inr ⟨h.1, h.2, rfl⟩
  · exact Or.inl rfl

/-- Round trip for `IntParam`: exact on integer values in range. -/
theorem IntParam.int_round_trip (p : IntParam) (v : ℤ)
    (hr : p.range = ((p.max - p.min : ℤ) : ℚ))
    (hrr : p.range_recip = p.range⁻¹) (hmm : p.min < p.max)
    (hv1 : p.min ≤ v) (hv2 : v ≤ p.max) :
    p.normal_to_value (p.value_to_normal v) = v := by
  have hrpos : (0 : ℚ) < p.range := by
    rw [hr]
    exact_mod_cast Int.sub_pos.mpr hmm
  have hval : (p.value_to_normal v).val = ((v - p.min : ℤ) : ℚ) * p.range_recip := by
    unfold IntParam.value_to_normal
    refine Normal.new_of_mem _ ?_ ?_
    · apply mul_nonneg
      · exact_mod_cast Int.sub_nonneg.mpr hv1
      · rw [hrr]
        exact inv_nonneg.mpr (le_of_lt hrpos)
    · rw [hrr, ← div_eq_mul_inv, div_le_one hrpos, hr]
      exact_mod_cast Int.sub_le_sub_right hv2 p.min
  have hprod : (p.value_to_normal v).val * p.range = ((v - p.min : ℤ) : ℚ) := by
    rw [hval, hrr, mul_assoc, inv_mul_cancel₀ (ne_of_gt hrpos), mul_one]
  unfold IntParam.normal_to_value
  rw [hprod, rustRound_intCast]
  omega

/-- Round trip for `OctaveParam` on a param whose spectrum fields agree
with its (spectrum-clamped, still ordered) bounds. -/
theorem OctaveParam.oct_round_trip (p : OctaveParam) (v : ℚ)
    (hmsn : p.min_spectrum_normal = octave_spectrum_to_normal (p.min : ℝ))
    (hrange : p.spectrum_normal_range =
      (octave_spectrum_to_normal (p.max : ℝ)).val -
        (octave_spectrum_to_normal (p.min : ℝ)).val)
    (h20 : 20 ≤ p.min) (hmm : p.min < p.max) (h2048 : p.max ≤ 20480)
    (hv1 : p.min ≤ v) (hv2 : v ≤ p.max) :
    p.normal_to_value (p.value_to_normal (v : ℝ)) = (v : ℝ) := by
  have hminR : (20 : ℝ) ≤ (p.min : ℝ) := by exact_mod_cast h20
  have hmaxR : (p.max : ℝ) ≤ 20480 := by exact_mod_cast h2048
  have hmmR : (p.min : ℝ) < (p.max : ℝ) := by exact_mod_cast hmm
  have hv1R : (p.min : ℝ) ≤ (v : ℝ) := by exact_mod_cast hv1
  have hv2R : (v : ℝ) ≤ (p.max : ℝ) := by exact_mod_cast hv2
  set sv := (octave_spectrum_to_normal (v : ℝ)).val with hsv
  set smin := (octave_spectrum_to_normal (p.min : ℝ)).val with hsmin
  set smax := (octave_spectrum_to_normal (p.max : ℝ)).val with hsmax
  have hminmax : smin < smax :=
    octave_spectrum_to_normal_lt _ _ hminR hmmR hmaxR
  have hlow : smin ≤ sv :=
    octave_spectrum_to_normal_le _ _ hminR hv1R (by linarith)
  have hhigh : sv ≤ smax :=
    octave_spectrum_to_normal_le _ _ (by linarith) hv2R hmaxR
  have hrpos : (0 : ℝ) < smax - smin := by linarith
  have hraw : (p.value_to_normal (v : ℝ)).val = (sv - smin) / (smax - smin) := by
    simp only [OctaveParam.value_to_normal]
    rw [hmsn, hrange]
    refine Normal.new_of_mem _ ?_ ?_
    · exact div_nonneg (by linarith) (le_of_lt hrpos)
    · rw [div_le_one hrpos]
      linarith
  have hsv01 : 0 ≤ sv ∧ sv ≤ 1 := by
    rw [hsv]
    unfold octave_spectrum_to_normal
    exact ⟨Normal.new_val_nonneg _, Normal.new_val_le_one _⟩
  have hinner : (p.value_to_normal (v : ℝ)).val * p.spectrum_normal_range +
      p.min_spectrum_normal.val = sv := by
    rw [hraw, hrange, hmsn, div_mul_cancel₀ _ (ne_of_gt hrpos)]
    ring
  simp only [OctaveParam.normal_to_value]
  rw [hinner]
  unfold octave_normal_to_spectrum
  rw [Normal.new_of_mem _ hsv01.1 hsv01.2]
  have hsveq : sv = (Real.logb 2 ((v : ℝ) / 40) + 1) * (1/10) := by
    rw [hsv]
    exact octave_spectrum_to_normal_val _ (by linarith) (by linarith)
  rw [hsveq]
  have hexp : 10 * ((Real.logb 2 ((v : ℝ) / 40) + 1) * (1/10)) - 1 =
      Real.logb 2 ((v : ℝ) / 40) := by ring
  rw [hexp, Real.rpow_logb (by norm_num) (by norm_num)
    (show (0 : ℝ) < (v : ℝ) / 40 by linarith)]
  field_simp

/-- Round trip for `LogDBParam`, away from the degenerate zero-normal
positions: exact whenever `zero_normal > 0` if the value is negative and
`zero_normal < 1` if the value is positive. -/
theorem LogDBParam.log_round_trip (p : LogDBParam) (v : ℚ)
    (hz0 : 0 ≤ p.zero_normal.val) (hz1 : p.zero_normal.val ≤ 1)
    (hneg : v < 0 → 0 < p.zero_normal.val)
    (hpos : 0 < v → p.zero_normal.val < 1)
    (hv1 : p.min ≤ v) (hv2 : v ≤ p.max) :
    p.normal_to_value (p.value_to_normal (v : ℝ)) = (v : ℝ) := by
  have hz0R : (0 : ℝ) ≤ (p.zero_normal.val : ℝ) := by exact_mod_cast hz0
  have hz1R : ((p.zero_normal.val : ℚ) : ℝ) ≤ 1 := by exact_mod_cast hz1
  rcases lt_trichotomy v 0 with hv | hv | hv
  · -- negative value
    have hvR : ((v : ℚ) : ℝ) < 0 := by exact_mod_cast hv
    have hminQ : p.min < 0 := lt_of_le_of_lt hv1 hv
    have hminR : ((p.min : ℚ) : ℝ) < 0 := by exact_mod_cast hminQ
    have hzposQ : 0 < p.zero_normal.val := hneg hv
    have hzpos : (0 : ℝ) < (p.zero_normal.val : ℝ) := by exact_mod_cast hzposQ
    have hq0 : (0 : ℝ) < (v : ℝ) / (p.min : ℝ) :=
      div_pos_of_neg_of_neg hvR hminR
    have hq1 : (v : ℝ) / (p.min : ℝ) ≤ 1 := by
      rw [show ((v : ℝ) / (p.min : ℝ)) = (-(v : ℝ)) / (-(p.min : ℝ)) by
        rw [neg_div_neg_eq]]
      rw [div_le_one (by linarith)]
      have hc : ((p.min : ℚ) : ℝ) ≤ (v : ℝ) := by exact_mod_cast hv1
      linarith
    have hs0 : 0 < Real.sqrt ((v : ℝ) / (p.min : ℝ)) := Real.sqrt_pos.mpr hq0
    have hs1 : Real.sqrt ((v : ℝ) / (p.min : ℝ)) ≤ 1 :=
      Real.sqrt_le_one.mpr hq1
    have hvn : p.value_to_normal (v : ℝ) = Normal.new
        ((1 - Real.sqrt ((v : ℝ) / (p.min : ℝ))) * (p.zero_normal.val : ℝ)) := by
      simp only [LogDBParam.value_to_normal]
      rw [if_neg (ne_of_lt hvR), if_pos hvR, if_neg (not_le.mpr hminQ)]
    have hraw0 : 0 ≤ (1 - Real.sqrt ((v : ℝ) / (p.min : ℝ))) *
        (p.zero_normal.val : ℝ) := mul_nonneg (by linarith) hz0R
    have hrawlt : (1 - Real.sqrt ((v : ℝ) / (p.min : ℝ))) *
        (p.zero_normal.val : ℝ) < (p.zero_normal.val : ℝ) := by
      have hlt : (1 - Real.sqrt ((v : ℝ) / (p.min : ℝ))) *
          (p.zero_normal.val : ℝ) < 1 * (p.zero_normal.val : ℝ) :=
        mul_lt_mul_of_pos_right (by linarith) hzpos
      linarith
    have hval : (p.value_to_normal (v : ℝ)).val =
        (1 - Real.sqrt ((v : ℝ) / (p.min : ℝ))) * (p.zero_normal.val : ℝ) := by
      rw [hvn]
      exact Normal.new_of_mem _ hraw0 (by linarith)
    simp only [LogDBParam.normal_to_value]
    rw [hval, if_neg (ne_of_lt hrawlt), if_pos hrawlt,
      if_neg (not_le.mpr hminQ),
      mul_div_cancel_right₀ _ (ne_of_gt hzpos),
      show (1 : ℝ) - (1 - Real.sqrt ((v : ℝ) / (p.min : ℝ))) =
        Real.sqrt ((v : ℝ) / (p.min : ℝ)) by ring,
      Real.sq_sqrt (le_of_lt hq0),
      show (1 : ℝ) - (1 - (v : ℝ) / (p.min : ℝ)) = (v : ℝ) / (p.min : ℝ) by
        ring]
    exact div_mul_cancel₀ _ (ne_of_lt hminR)
  · -- zero value
    subst hv
    have hcast : ((0 : ℚ) : ℝ) = 0 := Rat.cast_zero
    simp only [LogDBParam.value_to_normal, LogDBParam.normal_to_value]
    rw [if_pos hcast]
    rw [if_pos rfl, hcast]
  · -- positive value
    have hvR : (0 : ℝ) < ((v : ℚ) : ℝ) := by exact_mod_cast hv
    have hmaxQ : 0 < p.max := lt_of_lt_of_le hv hv2
    have hmaxR : (0 : ℝ) < ((p.max : ℚ) : ℝ) := by exact_mod_cast hmaxQ
    have hzltQ : p.zero_normal.val < 1 := hpos hv
    have hzlt : ((p.zero_normal.val : ℚ) : ℝ) < 1 := by exact_mod_cast hzltQ
    have hq0 : (0 : ℝ) < (v : ℝ) / (p.max : ℝ) := div_pos hvR hmaxR
    have hq1 : (v : ℝ) / (p.max : ℝ) ≤ 1 := by
      rw [div_le_one hmaxR]
      exact_mod_cast hv2
    have hs0 : 0 < Real.sqrt ((v : ℝ) / (p.max : ℝ)) := Real.sqrt_pos.mpr hq0
    have hs1 : Real.sqrt ((v : ℝ) / (p.max : ℝ)) ≤ 1 :=
      Real.sqrt_le_one.mpr hq1
    have hvn : p.value_to_normal (v : ℝ) = Normal.new
        (Real.sqrt ((v : ℝ) / (p.max : ℝ)) * (1 - (p.zero_normal.val : ℝ)) +
          (p.zero_normal.val : ℝ)) := by
      simp only [LogDBParam.value_to_normal]
      rw [if_neg (ne_of_gt hvR), if_neg (not_lt.mpr (le_of_lt hvR)),
        if_neg (not_le.mpr hmaxQ)]
    have hraw0 : 0 ≤ Real.sqrt ((v : ℝ) / (p.max : ℝ)) *
        (1 - (p.zero_normal.val : ℝ)) + (p.zero_normal.val : ℝ) := by
      have hm : 0 ≤ Real.sqrt ((v : ℝ) / (p.max : ℝ)) *
          (1 - (p.zero_normal.val : ℝ)) :=
        mul_nonneg (le_of_lt hs0) (by linarith)
      linarith
    have hraw1 : Real.sqrt ((v : ℝ) / (p.max : ℝ)) *
        (1 - (p.zero_normal.val : ℝ)) + (p.zero_normal.val : ℝ) ≤ 1 := by
      have hm : Real.sqrt ((v : ℝ) / (p.max : ℝ)) *
          (1 - (p.zero_normal.val : ℝ)) ≤ 1 * (1 - (p.zero_normal.val : ℝ)) :=
        mul_le_mul_of_nonneg_right hs1 (by linarith)
      linarith
    have hrawgt : (p.zero_normal.val : ℝ) <
        Real.sqrt ((v : ℝ) / (p.max : ℝ)) * (1 - (p.zero_normal.val : ℝ)) +
          (p.zero_normal.val : ℝ) := by
      have hm : 0 < Real.sqrt ((v : ℝ) / (p.max : ℝ)) *
          (1 - (p.zero_normal.val : ℝ)) := mul_pos hs0 (by linarith)
      linarith
    have hval : (p.value_to_normal (v : ℝ)).val =
        Real.sqrt ((v : ℝ) / (p.max : ℝ)) * (1 - (p.zero_normal.val : ℝ)) +
          (p.zero_normal.val : ℝ) := by
      rw [hvn]
      exact Normal.new_of_mem _ hraw0 hraw1
    have hguard : ¬(p.zero_normal.val = 1 ∨ p.max ≤ 0) := by
      push_neg
      exact ⟨ne_of_lt hzltQ, hmaxQ⟩
    simp only [LogDBParam.normal_to_value]
    rw [hval, if_neg (ne_of_gt hrawgt), if_neg (not_lt.mpr (le_of_lt hrawgt)),
      if_neg hguard, add_sub_cancel_right,
      mul_div_cancel_right₀ _ (show (1 : ℝ) - (p.zero_normal.val : ℝ) ≠ 0 from
        ne_of_gt (by linarith)),
      Real.sq_sqrt (le_of_lt hq0)]
    exact div_mul_cancel₀ _ (ne_of_gt hmaxR)

theorem FloatParam.float_newRaw_range (id : ℕ) (min max v dv : ℚ) :
    (FloatParam.newRaw id min max v dv).range = max - min := rfl

theorem FloatParam.float_newRaw_range_recip (id : ℕ) (min max v dv : ℚ) :
    (FloatParam.newRaw id min max v dv).range_recip =
      (FloatParam.newRaw id min max v dv).range⁻¹ := rfl

theorem FloatParam.float_newRaw_default_value (id : ℕ) (min max v dv : ℚ) :
    (FloatParam.newRaw id min max v dv).default_value =
      if dv ≤ min then min else if dv ≥ max then max else dv := rfl

theorem LogDBParam.newRaw_zero_normal (id : ℕ) (min max v dv : ℚ)
    (zn : Normal ℚ) :
    (LogDBParam.newRaw id min max v dv zn).zero_normal = zn := rfl

theorem LogDBParam.log_newRaw_default_value (id : ℕ) (min max v dv : ℚ)
    (zn : Normal ℚ) :
    (LogDBParam.newRaw id min max v dv zn).default_value =
      if (dv : ℝ) ≤ (min : ℝ) then (min : ℝ)
      else if (dv : ℝ) ≥ (max : ℝ) then (max : ℝ) else (dv : ℝ) := rfl

/-- C1 (amended): `normal_to_value(value_to_normal(v))` recovers every
in-range value exactly, except that FloatParam snaps results within
0.001 of the default value to the default; for LogDBParam exact
recovery additionally requires `zero_normal > 0` whenever the value is
negative and `zero_normal < 1` whenever it is positive (at the
degenerate positions the corresponding half-range collapses onto the
zero point); for OctaveParam it holds whenever the effective
spectrum-clamped bounds still satisfy `min < max`. -/
theorem c1_round_trip :
    (∀ (id : ℕ) (min max v0 dv : ℚ), min < max → ∀ v : ℚ,
      min ≤ v → v ≤ max →
      ((FloatParam.newRaw id min max v0 dv).normal_to_value
          ((FloatParam.newRaw id min max v0 dv).value_to_normal v) = v ∨
        ((FloatParam.newRaw id min max v0 dv).default_value - 1/1000 < v ∧
          v < (FloatParam.newRaw id min max v0 dv).default_value + 1/1000 ∧
          (FloatParam.newRaw id min max v0 dv).normal_to_value
            ((FloatParam.newRaw id min max v0 dv).value_to_normal v) =
            (FloatParam.newRaw id min max v0 dv).default_value))) ∧
    (∀ (id : ℕ) (min max v0 dv : ℤ), min < max → ∀ v : ℤ,
      min ≤ v → v ≤ max →
      (IntParam.newRaw id min max v0 dv).normal_to_value
        ((IntParam.newRaw id min max v0 dv).value_to_normal v) = v) ∧
    (∀ (id : ℕ) (min max v0 dv zn : ℚ), min < max → min ≤ 0 → 0 ≤ max →
      ∀ v : ℚ, min ≤ v → v ≤ max →
      (v < 0 → 0 < (Normal.new zn).val) →
      (0 < v → (Normal.new zn).val < 1) →
      (LogDBParam.newRaw id min max v0 dv (Normal.new zn)).normal_to_value
        ((LogDBParam.newRaw id min max v0 dv (Normal.new zn)).value_to_normal
          (v : ℝ)) = (v : ℝ)) ∧
    (∀ (id : ℕ) (min max v0 dv : ℚ), min < max →
      (OctaveParam.newRaw id min max v0 dv).min <
        (OctaveParam.newRaw id min max v0 dv).max →
      ∀ v : ℚ, (OctaveParam.newRaw id min max v0 dv).min ≤ v →
      v ≤ (OctaveParam.newRaw id min max v0 dv).max →
      (OctaveParam.newRaw id min max v0 dv).normal_to_value
        ((OctaveParam.newRaw id min max v0 dv).value_to_normal (v : ℝ)) =
        (v : ℝ)) := by
  refine ⟨fun id min max v0 dv hmm v hv1 hv2 => ?_,
    fun id min max v0 dv hmm v hv1 hv2 => ?_,
    fun id min max v0 dv zn hmm hm0 hM0 v hv1 hv2 hneg hpos => ?_,
    fun id min max v0 dv hreq heff v hv1 hv2 => ?_⟩
  · exact FloatParam.float_round_trip (FloatParam.newRaw id min max v0 dv) v
      (FloatParam.float_newRaw_range id min max v0 dv)
      (FloatParam.float_newRaw_range_recip id min max v0 dv) hmm hv1 hv2
  · exact IntParam.int_round_trip (IntParam.newRaw id min max v0 dv) v
      (IntParam.int_newRaw_range id min max v0 dv)
      (IntParam.int_newRaw_range_recip id min max v0 dv) hmm hv1 hv2
  · exact LogDBParam.log_round_trip (LogDBParam.newRaw id min max v0 dv (Normal.new zn)) v
      (Normal.new_val_nonneg zn) (Normal.new_val_le_one zn) hneg hpos hv1 hv2
  · refine OctaveParam.oct_round_trip (OctaveParam.newRaw id min max v0 dv) v rfl rfl ?_ heff
      ?_ hv1 hv2
    · rw [OctaveParam.oct_newRaw_min]
      split_ifs with h
      · exact le_refl 20
      · linarith [not_lt.mp h]
    · rw [OctaveParam.oct_newRaw_max]
      split_ifs with h
      · exact le_refl 20480
      · linarith [not_lt.mp h]

theorem c1_round_trip_witness :
    ((FloatParam.newRaw 0 0 10 5 5).normal_to_value
        ((FloatParam.newRaw 0 0 10 5 5).value_to_normal 3) = 3 ∨
      ((FloatParam.newRaw 0 0 10 5 5).default_value - 1/1000 < 3 ∧
        (3 : ℚ) < (FloatParam.newRaw 0 0 10 5 5).default_value + 1/1000 ∧
        (FloatParam.newRaw 0 0 10 5 5).normal_to_value
          ((FloatParam.newRaw 0 0 10 5 5).value_to_normal 3) =
          (FloatParam.newRaw 0 0 10 5 5).default_value)) ∧
    (IntParam.newRaw 0 0 5 2 2).normal_to_value
      ((IntParam.newRaw 0 0 5 2 2).value_to_normal 4) = 4 ∧
    (LogDBParam.newRaw 0 (-12) 12 0 0 (Normal.new (1/2))).normal_to_value
      ((LogDBParam.newRaw 0 (-12) 12 0 0 (Normal.new (1/2))).value_to_normal
        ((-6 : ℚ) : ℝ)) = ((-6 : ℚ) : ℝ) ∧
    (OctaveParam.newRaw 0 5 30000 1000 1000).normal_to_value
      ((OctaveParam.newRaw 0 5 30000 1000 1000).value_to_normal
        ((1000 : ℚ) : ℝ)) = ((1000 : ℚ) : ℝ) := by
  refine ⟨c1_round_trip.1 0 0 10 5 5 (by norm_num) 3 (by norm_num) (by norm_num),
    c1_round_trip.2.1 0 0 5 2 2 (by norm_num) 4 (by norm_num) (by norm_num),
    c1_round_trip.2.2.1 0 (-12) 12 0 0 (1/2) (by norm_num) (by norm_num)
      (by norm_num) (-6) (by norm_num) (by norm_num) ?_ ?_,
    c1_round_trip.2.2.2 0 5 30000 1000 1000 (by norm_num) ?_ 1000 ?_ ?_⟩
  · intro _
    rw [Normal.new_of_mem (1/2 : ℚ) (by norm_num) (by norm_num)]
    norm_num
  · intro h
    exact absurd h (by norm_num)
  · rw [OctaveParam.oct_newRaw_min, OctaveParam.oct_newRaw_max]
    norm_num
  · rw [OctaveParam.oct_newRaw_min]
    norm_num
  · rw [OctaveParam.oct_newRaw_max]
    norm_num

/-- C1 counterexample to the claim as stated: for
`LogDBParam::new(id, -12, 12, 0, 0, Normal::new(0.0))` (zero dB pinned
to the far left, a legal construction) the in-range value -6 dB maps to
Normal 0 and back to 0 dB, not -6 dB, and -6 is far outside the 0.001
snap-to-default window (the default is 0). -/
theorem c1_round_trip_counterexample :
    (LogDBParam.newRaw 0 (-12) 12 0 0 (Normal.new 0)).min ≤ (-6 : ℚ) ∧
    (-6 : ℚ) ≤ (LogDBParam.newRaw 0 (-12) 12 0 0 (Normal.new 0)).max ∧
    (LogDBParam.newRaw 0 (-12) 12 0 0 (Normal.new 0)).normal_to_value
      ((LogDBParam.newRaw 0 (-12) 12 0 0 (Normal.new 0)).value_to_normal
        ((-6 : ℚ) : ℝ)) = 0 ∧
    ((-6 : ℚ) : ℝ) ≠ 0 ∧
    (LogDBParam.newRaw 0 (-12) 12 0 0 (Normal.new 0)).default_value = 0 ∧
    ((-6 : ℚ) : ℝ) <
      (LogDBParam.newRaw 0 (-12) 12 0 0 (Normal.new 0)).default_value -
        1/1000 := by
  have hzval : ((LogDBParam.newRaw 0 (-12) 12 0 0
      (Normal.new 0)).zero_normal).val = 0 := by
    rw [LogDBParam.newRaw_zero_normal]
    exact Normal.new_of_mem 0 le_rfl zero_le_one
  have hdv : (LogDBParam.newRaw 0 (-12) 12 0 0 (Normal.new 0)).default_value
      = 0 := by
    rw [LogDBParam.log_newRaw_default_value]
    norm_num
  have hvn : (LogDBParam.newRaw 0 (-12) 12 0 0 (Normal.new 0)).value_to_normal
      ((-6 : ℚ) : ℝ) = Normal.new 0 := by
    simp only [LogDBParam.value_to_normal]
    rw [LogDBParam.log_newRaw_min, LogDBParam.newRaw_zero_normal,
      if_neg (show ¬(((-6 : ℚ) : ℝ) = 0) by norm_num),
      if_pos (show ((-6 : ℚ) : ℝ) < 0 by norm_num),
      if_neg (show ¬((0 : ℚ) ≤ -12) by norm_num),
      show ((Normal.new (0 : ℚ)).val : ℝ) = 0 by
        rw [Normal.new_of_mem (0 : ℚ) le_rfl zero_le_one]
        norm_num,
      mul_zero]
  have hntv : (LogDBParam.newRaw 0 (-12) 12 0 0 (Normal.new 0)).normal_to_value
      (Normal.new 0) = 0 := by
    simp only [LogDBParam.normal_to_value]
    rw [if_pos]
    rw [Normal.new_of_mem (0 : ℝ) le_rfl zero_le_one, hzval]
    norm_num
  refine ⟨?_, ?_, ?_, by norm_num, hdv, ?_⟩
  · rw [LogDBParam.log_newRaw_min]
    norm_num
  · rw [LogDBParam.log_newRaw_max]
    norm_num
  · rw [hvn, hntv]
  · rw [hdv]
    norm_num

theorem LogDBParam.value_to_normal_zero (p : LogDBParam) :
    (p.value_to_normal 0).val = (p.zero_normal.val : ℝ) := by
  simp [LogDBParam.value_to_normal]

theorem LogDBParam.value_to_normal_neg (p : LogDBParam) (value : ℝ)
    (hv : value < 0) (hmin : ¬(0 ≤ p.min)) :
    p.value_to_normal value = Normal.new
      ((1 - Real.sqrt (value / (p.min : ℝ))) * (p.zero_normal.val : ℝ)) := by
  simp only [LogDBParam.value_to_normal]
  rw [if_neg (ne_of_lt hv), if_pos hv, if_neg hmin]

theorem LogDBParam.value_to_normal_pos (p : LogDBParam) (value : ℝ)
    (hv : 0 < value) (hmax : ¬(p.max ≤ 0)) :
    p.value_to_normal value = Normal.new
      (Real.sqrt (value / (p.max : ℝ)) * (1 - (p.zero_normal.val : ℝ)) +
        (p.zero_normal.val : ℝ)) := by
  simp only [LogDBParam.value_to_normal]
  rw [if_neg (ne_of_gt hv), if_neg (not_lt.mpr (le_of_lt hv)), if_neg hmax]

/-- C5 (amended): `LogDBParam::value_to_normal` maps 0 dB to the stored
`zero_normal`; a negative value (when `min < 0`) to the clamp of
`zero_normal * (1 - sqrt(value/min))` — NOT of
`zero_normal * (1 - sqrt(1 - value/min))` as the spec formula reads —
and a positive value (when `max > 0`) to the clamp of
`zero_normal + (1-zero_normal) * sqrt(value/max)`. For
`LogDBParam::new(id,-12,12,0,0,0.5)`: `value_to_normal(0) == 0.5`,
`value_to_normal(12) == 1` and `value_to_normal(-12) == 0`. -/
theorem c5_logdb_forward :
    (∀ p : LogDBParam, (p.value_to_normal 0).val = (p.zero_normal.val : ℝ)) ∧
    (∀ (p : LogDBParam) (value : ℝ), value < 0 → ¬(0 ≤ p.min) →
      p.value_to_normal value = Normal.new
        ((1 - Real.sqrt (value / (p.min : ℝ))) * (p.zero_normal.val : ℝ))) ∧
    (∀ (p : LogDBParam) (value : ℝ), 0 < value → ¬(p.max ≤ 0) →
      p.value_to_normal value = Normal.new
        (Real.sqrt (value / (p.max : ℝ)) * (1 - (p.zero_normal.val : ℝ)) +
          (p.zero_normal.val : ℝ))) ∧
    ((LogDBParam.newRaw 0 (-12) 12 0 0 (Normal.new (1/2))).value_to_normal
        0).val = 1/2 ∧
    ((LogDBParam.newRaw 0 (-12) 12 0 0 (Normal.new (1/2))).value_to_normal
        (12 : ℝ)).val = 1 ∧
    ((LogDBParam.newRaw 0 (-12) 12 0 0 (Normal.new (1/2))).value_to_normal
        (-12 : ℝ)).val = 0 := by
  have hz : (((LogDBParam.newRaw 0 (-12) 12 0 0
      (Normal.new (1/2))).zero_normal.val : ℚ) : ℝ) = 1/2 := by
    rw [LogDBParam.newRaw_zero_normal,
      Normal.new_of_mem (1/2 : ℚ) (by norm_num) (by norm_num)]
    norm_num
  refine ⟨LogDBParam.value_to_normal_zero, LogDBParam.value_to_normal_neg,
    LogDBParam.value_to_normal_pos, ?_, ?_, ?_⟩
  · rw [LogDBParam.value_to_normal_zero, hz]
  · rw [LogDBParam.value_to_normal_pos _ 12 (by norm_num)
      (by rw [LogDBParam.log_newRaw_max]; norm_num)]
    rw [LogDBParam.log_newRaw_max, hz]
    rw [show ((12 : ℝ) / ((12 : ℚ) : ℝ)) = 1 by norm_num, Real.sqrt_one]
    rw [show (1 : ℝ) * (1 - 1/2) + 1/2 = 1 by norm_num]
    exact Normal.new_of_mem _ (by norm_num) (by norm_num)
  · rw [LogDBParam.value_to_normal_neg _ (-12) (by norm_num)
      (by rw [LogDBParam.log_newRaw_min]; norm_num)]
    rw [LogDBParam.log_newRaw_min, hz]
    rw [show ((-12 : ℝ) / ((-12 : ℚ) : ℝ)) = 1 by norm_num, Real.sqrt_one]
    rw [show ((1 : ℝ) - 1) * (1/2) = 0 by norm_num]
    exact Normal.new_of_mem _ (by norm_num) (by norm_num)

theorem c5_logdb_forward_witness :
    (LogDBParam.newRaw 0 (-12) 12 0 0 (Normal.new (1/2))).value_to_normal
        (-6 : ℝ) = Normal.new
      ((1 - Real.sqrt ((-6 : ℝ) /
          (((LogDBParam.newRaw 0 (-12) 12 0 0 (Normal.new (1/2))).min : ℚ) : ℝ))) *
        (((LogDBParam.newRaw 0 (-12) 12 0 0
          (Normal.new (1/2))).zero_normal.val : ℚ) : ℝ)) :=
  c5_logdb_forward.2.1 (LogDBParam.newRaw 0 (-12) 12 0 0 (Normal.new (1/2)))
    (-6) (by norm_num) (by rw [LogDBParam.log_newRaw_min]; norm_num)

/-- C5 counterexample to the spec formula for negative values: at
`LogDBParam::new(id,-12,12,0,0,0.5)` and value -12 the code yields
Normal 0 (as the spec example itself requires), while the spec formula
`zero_normal * (1 - sqrt(1 - value/min))` yields 0.5. -/
theorem c5_logdb_forward_counterexample :
    ((LogDBParam.newRaw 0 (-12) 12 0 0 (Normal.new (1/2))).value_to_normal
        (-12 : ℝ)).val = 0 ∧
    specLogDBValueToNormal (1/2) (-12) 12 (-12) = 1/2 ∧
    (0 : ℝ) ≠ 1/2 := by
  have hz : (((LogDBParam.newRaw 0 (-12) 12 0 0
      (Normal.new (1/2))).zero_normal.val : ℚ) : ℝ) = 1/2 := by
    rw [LogDBParam.newRaw_zero_normal,
      Normal.new_of_mem (1/2 : ℚ) (by norm_num) (by norm_num)]
    norm_num
  refine ⟨?_, ?_, by norm_num⟩
  · rw [LogDBParam.value_to_normal_neg _ (-12) (by norm_num)
      (by rw [LogDBParam.log_newRaw_min]; norm_num)]
    rw [LogDBParam.log_newRaw_min, hz]
    rw [show ((-12 : ℝ) / ((-12 : ℚ) : ℝ)) = 1 by norm_num, Real.sqrt_one]
    rw [show ((1 : ℝ) - 1) * (1/2) = 0 by norm_num]
    exact Normal.new_of_mem _ (by norm_num) (by norm_num)
  · unfold specLogDBValueToNormal
    rw [if_neg (by norm_num : ¬((-12 : ℝ) = 0)),
      if_pos (by norm_num : (-12 : ℝ) < 0)]
    rw [show (1 : ℝ) - (-12) / (-12) = 0 by norm_num, Real.sqrt_zero]
    norm_num

end IcedAudio
